import Mathlib

/-! aaronmoat-blog: tag pages and the isotype chart series

A shallow embedding of the computational parts of

* `src/pages/tags.js` (the "all tags" page: `TagsPage` and its `pageQuery`),
* `src/templates/tags.js` (the per-tag page: `Tags` and its `pageQuery`),
* `stories/IsotypeSeries/index.js` (`IsotypeSeries.render`).

Conventions.

* JavaScript arrays are Lean lists.
* Counts (`totalCount`, `column.y`) are natural numbers; plotting coordinates are
  rationals. The scales of the plot are given twice: in exact arithmetic (`Plot.series`)
  and in the binary64 arithmetic of JavaScript numbers (`Double`, `Plot.doubleSeries`),
  which decides the claims where rounding matters.
* `Array.prototype.sort` is the stable comparator sort that ECMAScript 2019 and later
  prescribe (engines older than that were free to reorder ties).
-/

namespace Blog

/-! ## `Array.prototype.sort` with a comparator -/

section ArraySort

variable {α : Type}

/-- Inserts `a` into an already sorted list, in front of the first element `b` that the
comparator does not put before `a` (`cmp a b ≤ 0`). -/
def sortInsert (cmp : α → α → Int) (a : α) : List α → List α
  | [] => [a]
  | b :: l => if cmp a b ≤ 0 then a :: b :: l else b :: sortInsert cmp a l

/-- The result of `xs.sort(cmp)`: `a` comes before `b` when `cmp a b < 0`, and elements
the comparator does not separate keep their original order. -/
def arraySort (cmp : α → α → Int) : List α → List α
  | [] => []
  | a :: l => sortInsert cmp a (arraySort cmp l)

end ArraySort

/-! ## The "all tags" page, `src/pages/tags.js` -/

/-- One entry of `data.allMarkdownRemark.group`: `{ fieldValue, totalCount }`. -/
structure TagGroup where
  fieldValue : String
  totalCount : Nat
deriving DecidableEq, Repr

namespace TagsPage

/-- The comparator `(a, b) => b.totalCount - a.totalCount`. -/
def compare (a b : TagGroup) : Int := (b.totalCount : Int) - (a.totalCount : Int)

/-- The list built by `const sortedGroups = group.slice(); sortedGroups.sort(...)`. -/
def sortedGroups (group : List TagGroup) : List TagGroup :=
  arraySort compare group

end TagsPage

/-! ## Posts and the GraphQL queries of the two tag pages -/

/-- The `frontmatter` of a markdown node. `date` is the publication instant, a number
whose order is the chronological order the query sorts by. -/
structure Frontmatter where
  title : String
  date : Nat
  description : Option String
  tags : List String
deriving DecidableEq, Repr

/-- The `fields` of a markdown node. -/
structure Fields where
  slug : String
deriving DecidableEq, Repr

/-- A markdown node (a post) as both page queries see it. -/
structure Post where
  excerpt : String
  fields : Fields
  frontmatter : Frontmatter
deriving DecidableEq, Repr

/-- The `limit: 2000` argument that both `allMarkdownRemark` queries carry. -/
def queryLimit : Nat := 2000

/-- Modelled from the spec: the counting step of `group(field: frontmatter___tags)`,
run by the site generator's query layer, which is not part of the sources. The spec has
it "increment a count per distinct tag": the group of `tag` gains one, and a tag met for
the first time opens a group at the end. -/
def incrementCount (tag : String) : List TagGroup → List TagGroup
  | [] => [{ fieldValue := tag, totalCount := 1 }]
  | g :: rest =>
    if g.fieldValue = tag then { g with totalCount := g.totalCount + 1 } :: rest
    else g :: incrementCount tag rest

/-- Modelled from the spec: `group(field: frontmatter___tags)` over the nodes of a
connection, run by the site generator's query layer, which is not part of the sources.
The spec has it iterate all posts and count every tag of every post. -/
def groupByTags (nodes : List Post) : List TagGroup :=
  nodes.foldl
    (fun acc node => node.frontmatter.tags.foldl (fun acc tag => incrementCount tag acc) acc)
    []

namespace TagsPage

/-- The `pageQuery` of `src/pages/tags.js`:
`allMarkdownRemark(limit: 2000) { group(field: frontmatter___tags) { fieldValue totalCount } }`.
The connection holds the first `limit` nodes and `group` runs over that connection. -/
def pageQuery (posts : List Post) : List TagGroup :=
  groupByTags (posts.take queryLimit)

/-- The groups the page lists, in the order of the `<li>` elements. -/
def listedGroups (posts : List Post) : List TagGroup :=
  sortedGroups (pageQuery posts)

end TagsPage

/-- The sum of `totalCount` over a list of groups. -/
def totalCountSum (groups : List TagGroup) : Nat :=
  (groups.map (fun g => g.totalCount)).sum

/-- The sum, over a list of posts, of the length of each post's tag list. -/
def tagLengthSum (posts : List Post) : Nat :=
  (posts.map (fun p => p.frontmatter.tags.length)).sum

/-! ## The per-tag page, `src/templates/tags.js` -/

/-- The `data.allMarkdownRemark` of the per-tag page: `{ totalCount, edges { node } }`. -/
structure TagsData where
  totalCount : Nat
  edges : List Post
deriving DecidableEq, Repr

/-- A rendered `<Post node={node} key={node.fields.slug} />`. -/
structure PostElement where
  key : String
  node : Post
deriving DecidableEq, Repr

namespace Tags

/-- The filter `{ frontmatter: { tags: { in: [$tag] } } }`: some element of the node's
tag array is an element of the one-element list `[$tag]`, by string equality. -/
def tagFilter (tag : String) (node : Post) : Bool :=
  node.frontmatter.tags.any (fun t => [tag].contains t)

/-- The comparator of `sort: { fields: [frontmatter___date], order: DESC }`. -/
def compareDateDesc (a b : Post) : Int :=
  (b.frontmatter.date : Int) - (a.frontmatter.date : Int)

/-- Modelled from the spec: the `pageQuery` of `src/templates/tags.js`, evaluated by the
site generator's query layer, which is not part of the sources:
`allMarkdownRemark(limit: 2000, sort: { fields: [frontmatter___date], order: DESC },
filter: { frontmatter: { tags: { in: [$tag] } } })`. The nodes are filtered, the matches
sorted by date descending (ties in input order), `totalCount` counts the matches and
`edges` holds the first `limit` of them. -/
def pageQuery (posts : List Post) (tag : String) : TagsData :=
  let sorted := arraySort compareDateDesc (posts.filter (tagFilter tag))
  { totalCount := sorted.length, edges := sorted.take queryLimit }

/-- The list `edges.map(({ node }) => <Post node={node} key={node.fields.slug} />)`. -/
def renderPosts (edges : List Post) : List PostElement :=
  edges.map (fun node => { key := node.fields.slug, node := node })

/-- The template literal
`${totalCount} post${totalCount === 1 ? '' : 's'} tagged with "${tag}"`. The count is a
GraphQL `Int`, a natural number that the literal inserts as its decimal numeral. -/
def tagHeader (totalCount : Nat) (tag : String) : String :=
  toString totalCount ++ " post" ++ (if totalCount = 1 then "" else "s") ++
    " tagged with \"" ++ tag ++ "\""

/-- What the component `Tags` renders of `pageContext` and `data`: the text of the `<h1>`
and the posts below the link to all tags. -/
structure Rendered where
  tagHeader : String
  posts : List PostElement
deriving DecidableEq, Repr

/-- The component `Tags`, given `pageContext.tag` and `data.allMarkdownRemark`. -/
def render (tag : String) (data : TagsData) : Rendered :=
  { tagHeader := tagHeader data.totalCount tag, posts := renderPosts data.edges }

end Tags

/-- A post numbered `i`, published at instant `i` and tagged `go` only. -/
def goPost (i : Nat) : Post :=
  { excerpt := "",
    fields := { slug := "/blog/" ++ toString i ++ "/" },
    frontmatter := { title := "Post", date := i, description := none, tags := ["go"] } }

/-- The two posts of the spec's end-to-end example, the first one the newer. -/
def examplePosts : List Post :=
  [ { excerpt := "", fields := { slug := "/a/" },
      frontmatter := { title := "A", date := 2, description := none, tags := ["go", "rust"] } },
    { excerpt := "", fields := { slug := "/b/" },
      frontmatter := { title := "B", date := 1, description := none, tags := ["go"] } } ]

/-! ## The isotype series, `stories/IsotypeSeries/index.js` -/

/-- The error `Array(len)` raises when `len` is not an array length. -/
inductive JsError where
  | rangeError
deriving DecidableEq, Repr

/-- A style object, as its own properties in insertion order. -/
abbrev Style := List (String × String)

/-- Sets one property of an object: an existing key keeps its place and takes the new
value, a new key goes last. -/
def setProperty (key value : String) : Style → Style
  | [] => [(key, value)]
  | (k, v) :: rest =>
    if k = key then (k, value) :: rest else (k, v) :: setProperty key value rest

/-- The object `{ ...target, ...source }`. -/
def spread (target source : Style) : Style :=
  source.foldl (fun acc kv => setProperty kv.1 kv.2 acc) target

/-! ## Binary64 arithmetic -/

/-- A JavaScript number of the normal range, or zero: the value `mant * 2 ^ exp` with
`2 ^ 52 ≤ |mant| < 2 ^ 53`, zero being `⟨0, 0⟩`. Infinities, `NaN`, the sign of zero and
subnormal numbers are left out. -/
structure Double where
  mant : Int
  exp : Int
deriving DecidableEq, Repr

namespace Double

/-- The number of binary digits of `n`, with `fuel` at least that number. -/
def bitLength : Nat → Nat → Nat
  | 0, _ => 0
  | fuel + 1, n => if n = 0 then 0 else bitLength fuel (n / 2) + 1

/-- The integer nearest to `n / d`, the even one of the two when `n / d` lies halfway. -/
def roundHalfEven (n d : Nat) : Nat :=
  if 2 * (n % d) < d then n / d
  else if d < 2 * (n % d) then n / d + 1
  else if (n / d) % 2 = 0 then n / d else n / d + 1

/-- The binary64 number nearest to `n / d`, negated when `neg` holds: round to nearest,
ties to even, on a significand of 53 bits. -/
def round (neg : Bool) (n d : Nat) : Double :=
  if n = 0 ∨ d = 0 then ⟨0, 0⟩
  else
    let e0 : Int := (bitLength n n : Int) - (bitLength d d : Int) - 52
    let num (e : Int) : Nat := n * 2 ^ (-e).toNat
    let den (e : Int) : Nat := d * 2 ^ e.toNat
    let e : Int := if 2 ^ 52 * den e0 ≤ num e0 then e0 else e0 - 1
    let m := roundHalfEven (num e) (den e)
    let r : Int × Int := if m = 2 ^ 53 then (2 ^ 52, e + 1) else (m, e)
    ⟨if neg then -r.1 else r.1, r.2⟩

/-- The binary64 number nearest to `m * 2 ^ e / d`. -/
def ofScaled (m : Int) (e : Int) (d : Nat) : Double :=
  round (decide (m < 0)) (m.natAbs * 2 ^ e.toNat) (d * 2 ^ (-e).toNat)

/-- The binary64 number nearest to a natural number. -/
def ofNat (n : Nat) : Double :=
  round false n 1

/-- The binary64 number nearest to a rational number. -/
def ofRat (q : ℚ) : Double :=
  round (decide (q.num < 0)) q.num.natAbs q.den

/-- The exact value of a binary64 number. -/
def toRat (x : Double) : ℚ :=
  (x.mant : ℚ) * 2 ^ x.exp

/-- The sum `x + y` of JavaScript: the exact sum, rounded. -/
def add (x y : Double) : Double :=
  ofScaled
    (x.mant * 2 ^ (x.exp - min x.exp y.exp).toNat + y.mant * 2 ^ (y.exp - min x.exp y.exp).toNat)
    (min x.exp y.exp) 1

/-- The difference `x - y` of JavaScript. -/
def sub (x y : Double) : Double :=
  add x ⟨-y.mant, y.exp⟩

/-- The product `x * y` of JavaScript: the exact product, rounded. -/
def mul (x y : Double) : Double :=
  ofScaled (x.mant * y.mant) (x.exp + y.exp) 1

/-- The quotient `x / y` of JavaScript for `y` other than zero: the exact quotient,
rounded. -/
def div (x y : Double) : Double :=
  ofScaled (if y.mant < 0 then -x.mant else x.mant) (x.exp - y.exp) y.mant.natAbs

end Double

/-- The two ways the plotting library's number interpolator has computed the point at
`t` between `a` and `b`: `a + (b - a) * t`, and `a * (1 - t) + b * t` in later
versions. -/
inductive Interpolator where
  | offset
  | weighted
deriving DecidableEq, Repr

/-- The interpolated number at `t` between `a` and `b`, in binary64 arithmetic. -/
def Interpolator.apply (interpolator : Interpolator) (a b t : Double) : Double :=
  match interpolator with
  | .offset => Double.add a (Double.mul (Double.sub b a) t)
  | .weighted =>
    Double.add (Double.mul a (Double.sub (Double.ofNat 1) t)) (Double.mul b t)

namespace IsotypeSeries

/-- The result of `getParentConfig`. -/
structure ParentConfig where
  isDomainAdjustmentNeeded : Bool
  zeroBaseValue : Bool
deriving DecidableEq, Repr

/-- The static method `getParentConfig(attr)`. -/
def getParentConfig (attr : String) : ParentConfig :=
  { isDomainAdjustmentNeeded := attr == "x", zeroBaseValue := attr == "y" }

/-- An entry of `data`: category label `x`, count `y`, optional `fill` colour and optional
icon renderer. -/
structure Column (Icon : Type) where
  x : String
  y : Nat
  fill : Option String
  icon : Option Icon
deriving DecidableEq, Repr

/-- An object handed to an attribute functor; `render` passes columns, data points and
the literals `{ y: 1 }` and `{}`. -/
structure Datum (Icon : Type) where
  x : Option String
  y : Option Nat
  fill : Option String
  icon : Option Icon
deriving DecidableEq, Repr

/-- A column seen as the object handed to a functor. -/
def Column.toDatum {Icon : Type} (column : Column Icon) : Datum Icon :=
  { x := some column.x, y := some column.y, fill := column.fill, icon := column.icon }

/-- The object literal `{ y: 1 }`. -/
def unitDatum (Icon : Type) : Datum Icon :=
  { x := none, y := some 1, fill := none, icon := none }

/-- The object literal `{}`. -/
def emptyDatum (Icon : Type) : Datum Icon :=
  { x := none, y := none, fill := none, icon := none }

/-- What `render` obtains from the `AbstractSeries` it extends (the plotting library):
`_getAttributeFunctor('x')`, `_getAttributeFunctor('y')`, `_getAttr0Functor('y')` and
`_getScaleDistance('x')`. -/
structure Series (Icon : Type) where
  lineFunctor : Datum Icon → ℚ
  valueFunctor : Datum Icon → ℚ
  value0Functor : Datum Icon → ℚ
  scaleDistanceX : ℚ

/-- The props `render` destructures. -/
structure Props (Icon : Type) where
  data : Option (List (Column Icon))
  marginLeft : ℚ
  marginTop : ℚ
  style : Style
  scaleFactor : Option ℚ

/-- The attributes of the transparent `<rect>` of a column. -/
structure RectAttrs where
  x : ℚ
  width : ℚ
  y : ℚ
  height : ℚ
  fill : String
deriving DecidableEq, Repr

/-- The object `attrs` built for one data point. -/
structure SymbolAttrs (Icon : Type) where
  style : Style
  x : ℚ
  y : ℚ
  width : ℚ
  height : ℚ
  key : Nat
  icon : Option Icon
deriving DecidableEq, Repr

/-- What `renderSymbol` returns: the icon component, or `none` for the `<rect>` of
`renderRectangle`, applied to the remaining attributes. -/
structure Symbol (Icon : Type) where
  component : Option Icon
  style : Style
  x : ℚ
  y : ℚ
  width : ℚ
  height : ℚ
  key : Nat
deriving DecidableEq, Repr

/-- The `<g key={column.x}>` of one column: the column its mouse handlers report, its
`<rect>` and its symbols. -/
structure ColumnGroup (Icon : Type) where
  key : String
  hovered : Column Icon
  rect : RectAttrs
  symbols : List (Symbol Icon)
deriving DecidableEq, Repr

/-- The outer `<g transform="translate(marginLeft, marginTop)">`. -/
structure SeriesGroup (Icon : Type) where
  translate : ℚ × ℚ
  columns : List (ColumnGroup Icon)
deriving DecidableEq, Repr

section Render

variable {Icon : Type}

/-- The prop `scaleFactor`, `0.85` when it is not supplied. -/
def scaleFactor (props : Props Icon) : ℚ :=
  props.scaleFactor.getD (85 / 100)

/-- The constant `heightPerIcon = Math.abs(valueFunctor({ y: 1 }) - value0Functor({}))`. -/
def heightPerIcon (self : Series Icon) : ℚ :=
  |self.valueFunctor (unitDatum Icon) - self.value0Functor (emptyDatum Icon)|

/-- The constant `widthPerIcon = this._getScaleDistance('x')`. -/
def widthPerIcon (self : Series Icon) : ℚ :=
  self.scaleDistanceX

/-- The constant `size = Math.min(widthPerIcon, heightPerIcon) * scaleFactor`. -/
def size (self : Series Icon) (props : Props Icon) : ℚ :=
  min (widthPerIcon self) (heightPerIcon self) * scaleFactor props

/-- The array `Array(column.y).fill().map((_, i) => ({ ...column, y: i + 1 }))`.
`Array(len)` raises a `RangeError` unless `len` is an integer below `2 ^ 32`. -/
def dataPointsForColumn (column : Column Icon) : Except JsError (List (Column Icon)) :=
  if column.y < 2 ^ 32 then
    .ok ((List.range column.y).map (fun i => { column with y := i + 1 }))
  else
    .error .rangeError

/-- The attributes of the `<rect>` of `column`. -/
def rectAttrs (self : Series Icon) (props : Props Icon) (column : Column Icon) : RectAttrs :=
  { x := self.lineFunctor column.toDatum - size self props / 2,
    width := size self props,
    y := min (self.value0Functor column.toDatum) (self.valueFunctor column.toDatum),
    height := |(-self.value0Functor column.toDatum) + self.valueFunctor column.toDatum|,
    fill := "transparent" }

/-- The value of `d.fill || 'rgb(18, 147, 154)'`. -/
def fillOf (d : Column Icon) : String :=
  match d.fill with
  | some f => if f = "" then "rgb(18, 147, 154)" else f
  | none => "rgb(18, 147, 154)"

/-- The object `attrs` built for the data point `d` of `column`. -/
def symbolAttrs (self : Series Icon) (props : Props Icon) (column d : Column Icon) :
    SymbolAttrs Icon :=
  { style := spread [("fill", fillOf d)] props.style,
    x := self.lineFunctor d.toDatum - size self props / 2,
    y := self.valueFunctor d.toDatum,
    width := size self props,
    height := size self props,
    key := d.y,
    icon := column.icon }

/-- The method `renderSymbol(attrs)`. -/
def renderSymbol (attrs : SymbolAttrs Icon) : Symbol Icon :=
  { component := attrs.icon,
    style := attrs.style,
    x := attrs.x,
    y := attrs.y,
    width := attrs.width,
    height := attrs.height,
    key := attrs.key }

/-- The body of `data.map((column, i) => ...)` for one column. -/
def renderColumn (self : Series Icon) (props : Props Icon) (column : Column Icon) :
    Except JsError (ColumnGroup Icon) :=
  match dataPointsForColumn column with
  | .error e => .error e
  | .ok points =>
    .ok { key := column.x,
          hovered := column,
          rect := rectAttrs self props column,
          symbols := points.map (fun d => renderSymbol (symbolAttrs self props column d)) }

/-- Maps `data` in order, stopping at the first column that raises. -/
def renderColumns (self : Series Icon) (props : Props Icon) :
    List (Column Icon) → Except JsError (List (ColumnGroup Icon))
  | [] => .ok []
  | column :: rest =>
    match renderColumn self props column with
    | .error e => .error e
    | .ok group =>
      match renderColumns self props rest with
      | .error e => .error e
      | .ok groups => .ok (group :: groups)

/-- The method `render()`: `null` (here `none`) when `data` is missing, else the group of
the column groups. -/
def render (self : Series Icon) (props : Props Icon) :
    Except JsError (Option (SeriesGroup Icon)) :=
  match props.data with
  | none => .ok none
  | some data =>
    match renderColumns self props data with
    | .error e => .error e
    | .ok columns => .ok (some { translate := (props.marginLeft, props.marginTop),
                                  columns := columns })

end Render

/-! ### The scales of the plot -/

/-- Modelled from the spec: the plot that hosts the series, whose scales come from the
plotting library and are not part of the sources. `categories` is the domain of the
ordinal band scale, in declaration order; the value scale is linear and zero-based, from
the domain `[0, valueMax]` onto `[plotHeight, 0]`, so that the baseline `plotHeight` is
the image of the value `0`. -/
structure Plot where
  plotWidth : ℚ
  plotHeight : ℚ
  categories : List String
  valueMax : ℚ
deriving DecidableEq, Repr

namespace Plot

/-- Modelled from the spec: `width_per_category = plot_width / number_of_categories`, the
width of one band of the ordinal scale of the plotting library. -/
def widthPerCategory (plot : Plot) : ℚ :=
  plot.plotWidth / plot.categories.length

/-- Modelled from the spec: the centre of the band of `label`; the bands are of equal
width, one per category, in declaration order. The scale is part of the plotting
library. -/
def categoryCenter (plot : Plot) (label : String) : ℚ :=
  ((plot.categories.indexOf label : ℚ) + 1 / 2) * plot.widthPerCategory

/-- Modelled from the spec: the domain of the value scale of the plotting library,
zero-based: `[0, valueMax]`. A domain of the single point `0`, that of a chart whose
counts are all `0`, is replaced by `[-1, 0]`, as the library does before it builds the
scale, so that the scale is linear for every plot. -/
def valueDomain (plot : Plot) : ℚ × ℚ :=
  if plot.valueMax = 0 then (-1, 0) else (0, plot.valueMax)

/-- Modelled from the spec: the linear value scale of the plotting library, in exact
arithmetic: the domain `valueDomain` is mapped onto the range `[plotHeight, 0]`. -/
def valueScale (plot : Plot) (v : ℚ) : ℚ :=
  plot.plotHeight +
    (v - plot.valueDomain.1) / (plot.valueDomain.2 - plot.valueDomain.1) *
      (0 - plot.plotHeight)

/-- The axis baseline: the image of the value `0`. -/
def baseline (plot : Plot) : ℚ :=
  plot.valueScale 0

/-- Modelled from the spec: what `AbstractSeries` hands to `render` in such a plot. The
`x` functor sends a datum to the centre of its category, the `y` functor to the image of
its count, the `y0` functor to the image of the base value `0` of the zero-based scale
that `getParentConfig('y')` asks for; the distance of the `x` scale is the width of a
band. -/
def series (Icon : Type) (plot : Plot) : Series Icon :=
  { lineFunctor := fun d =>
      match d.x with
      | some label => plot.categoryCenter label
      | none => 0,
    valueFunctor := fun d =>
      match d.y with
      | some v => plot.valueScale v
      | none => 0,
    value0Functor := fun _ => plot.valueScale 0,
    scaleDistanceX := plot.widthPerCategory }

/-- Modelled from the spec: the linear value scale of the plotting library, evaluated as
the library evaluates it, in binary64 arithmetic: `t = (v - d0) / (d1 - d0)` for the
domain `[d0, d1]`, then the interpolated number at `t` between the ends `plotHeight` and
`0` of the range. -/
def doubleValueScale (interpolator : Interpolator) (plot : Plot) (v : Nat) : Double :=
  interpolator.apply (Double.ofRat plot.plotHeight) (Double.ofNat 0)
    (Double.div (Double.sub (Double.ofNat v) (Double.ofRat plot.valueDomain.1))
      (Double.sub (Double.ofRat plot.valueDomain.2) (Double.ofRat plot.valueDomain.1)))

/-- Modelled from the spec: what `AbstractSeries` hands to `render` when the value scale
is evaluated in binary64 arithmetic; the `x` scale is that of `series`. -/
def doubleSeries (Icon : Type) (interpolator : Interpolator) (plot : Plot) : Series Icon :=
  { lineFunctor := fun d =>
      match d.x with
      | some label => plot.categoryCenter label
      | none => 0,
    valueFunctor := fun d =>
      match d.y with
      | some v => (plot.doubleValueScale interpolator v).toRat
      | none => 0,
    value0Functor := fun _ => (plot.doubleValueScale interpolator 0).toRat,
    scaleDistanceX := plot.widthPerCategory }

end Plot

/-- The first column of the `data` of the story `index.stories.jsx`, its icon named by
its glyph. -/
def clockColumn : Column String :=
  { x := "Clock", y := 8, fill := none, icon := some "faClock" }

/-- The second column of the story. -/
def catColumn : Column String :=
  { x := "Cat", y := 11, fill := none, icon := some "faCat" }

/-- The third column of the story. -/
def lockColumn : Column String :=
  { x := "Lock", y := 3, fill := none, icon := some "faLock" }

/-- The `data` of the story `index.stories.jsx`. -/
def storyData : List (Column String) :=
  [clockColumn, catColumn, lockColumn]

/-- A plot for the story: 300 wide and 220 high, the three categories of the story and
the value domain `[0, 11]` of its counts. -/
def storyPlot : Plot :=
  { plotWidth := 300, plotHeight := 220, categories := ["Clock", "Cat", "Lock"],
    valueMax := 11 }

/-- The props of the story: its data, no margins, no style and no `scaleFactor`. -/
def storyProps : Props String :=
  { data := some storyData, marginLeft := 0, marginTop := 0, style := [],
    scaleFactor := none }

/-- The props of the story with the prop `scaleFactor` set to `1`. -/
def touchingProps : Props String :=
  { data := some storyData, marginLeft := 0, marginTop := 0, style := [],
    scaleFactor := some 1 }

/-- A column whose count `2 ^ 32` is no array length. -/
def hugeColumn : Column String :=
  { x := "A", y := 4294967296, fill := none, icon := none }

/-- The props of a chart whose data is the single column `hugeColumn`. -/
def hugeProps : Props String :=
  { data := some [hugeColumn], marginLeft := 0, marginTop := 0, style := [],
    scaleFactor := none }

/-- A plot 200 wide and 100 high for the single column `hugeColumn`. -/
def hugePlot : Plot :=
  { plotWidth := 200, plotHeight := 100, categories := ["A"], valueMax := 4294967296 }

/-- A column of count `0`. -/
def emptyColumn : Column String :=
  { x := "A", y := 0, fill := none, icon := none }

/-- A plot 200 wide and 100 high for the single column `emptyColumn`; the counts of the
data give the value domain the single point `0`. -/
def emptyPlot : Plot :=
  { plotWidth := 200, plotHeight := 100, categories := ["A"], valueMax := 0 }

/-- The props of a chart whose data is the single column `emptyColumn`. -/
def emptyProps : Props String :=
  { data := some [emptyColumn], marginLeft := 0, marginTop := 0, style := [],
    scaleFactor := none }

/-- The data point `{ ...column, y: k }`. -/
def pointAt {Icon : Type} (column : Column Icon) (k : Nat) : Column Icon :=
  { column with y := k }

end IsotypeSeries

/-- Three posts tagged `golang`, `Go` and `go`, and the newer post of the spec's
example. -/
def mixedPosts : List Post :=
  [ { excerpt := "", fields := { slug := "/x/" },
      frontmatter := { title := "X", date := 5, description := none, tags := ["golang"] } },
    { excerpt := "", fields := { slug := "/y/" },
      frontmatter := { title := "Y", date := 4, description := none, tags := ["Go"] } },
    { excerpt := "", fields := { slug := "/b/" },
      frontmatter := { title := "B", date := 1, description := none, tags := ["go"] } },
    { excerpt := "", fields := { slug := "/a/" },
      frontmatter := { title := "A", date := 2, description := none, tags := ["go", "rust"] } } ]

/-! ## Lemmas on `arraySort` -/

section ArraySortLemmas

variable {α : Type}

theorem sortInsert_eq_orderedInsert (cmp : α → α → Int) (a : α) (l : List α) :
    sortInsert cmp a l = List.orderedInsert (fun x y => cmp x y ≤ 0) a l := by
  induction l with
  | nil => rfl
  | cons b l ih => simp only [sortInsert, List.orderedInsert, ih]

theorem arraySort_eq_insertionSort (cmp : α → α → Int) (l : List α) :
    arraySort cmp l = List.insertionSort (fun x y => cmp x y ≤ 0) l := by
  induction l with
  | nil => rfl
  | cons a l ih =>
    simp only [arraySort, List.insertionSort, ih, sortInsert_eq_orderedInsert]

theorem arraySort_perm (cmp : α → α → Int) (l : List α) : (arraySort cmp l).Perm l := by
  rw [arraySort_eq_insertionSort]
  exact List.perm_insertionSort _ l

theorem arraySort_length (cmp : α → α → Int) (l : List α) :
    (arraySort cmp l).length = l.length :=
  (arraySort_perm cmp l).length_eq

/-- A list that is already ordered for the comparator stays a sublist of the sorted
array: the sort never swaps two elements the comparator leaves in place. -/
theorem arraySort_sublist (cmp : α → α → Int) {c l : List α}
    (hc : c.Pairwise (fun x y => cmp x y ≤ 0)) (h : c.Sublist l) :
    c.Sublist (arraySort cmp l) := by
  rw [arraySort_eq_insertionSort]
  exact List.sublist_insertionSort hc h

/-- For a comparator induced by a key (`cmp a b ≤ 0 ↔ key b ≤ key a`), the sorted array
is non-increasing in the key. -/
theorem arraySort_pairwise_key (cmp : α → α → Int) (key : α → Nat)
    (hkey : ∀ a b, cmp a b ≤ 0 ↔ key b ≤ key a) (l : List α) :
    (arraySort cmp l).Pairwise (fun a b => key b ≤ key a) := by
  rw [arraySort_eq_insertionSort]
  haveI : IsTotal α (fun x y => cmp x y ≤ 0) :=
    ⟨fun a b => (Nat.le_total (key b) (key a)).imp (hkey a b).mpr (hkey b a).mpr⟩
  haveI : IsTrans α (fun x y => cmp x y ≤ 0) :=
    ⟨fun a b c h₁ h₂ =>
      (hkey a c).mpr (Nat.le_trans ((hkey b c).mp h₂) ((hkey a b).mp h₁))⟩
  have hs := List.sorted_insertionSort (fun x y => cmp x y ≤ 0) l
  exact List.Pairwise.imp (fun {a b} h => (hkey a b).mp h) hs

theorem TagsPage.compare_le_zero (a b : TagGroup) :
    TagsPage.compare a b ≤ 0 ↔ b.totalCount ≤ a.totalCount := by
  unfold TagsPage.compare
  omega

end ArraySortLemmas

/-! ## Claims on the "all tags" page -/

/-- C1: for every list `group` handed to `TagsPage`, the rendered `sortedGroups` is
non-increasing in `totalCount`: every entry has a count at least that of every later
entry, in particular of the entry right after it. -/
theorem sortedGroups_nonincreasing (group : List TagGroup) :
    (TagsPage.sortedGroups group).Pairwise (fun a b => a.totalCount ≥ b.totalCount) ∧
    (TagsPage.sortedGroups group).Chain' (fun a b => a.totalCount ≥ b.totalCount) := by
  have h := arraySort_pairwise_key TagsPage.compare (fun g => g.totalCount)
    TagsPage.compare_le_zero group
  exact ⟨h, List.Pairwise.chain' h⟩

/-- C3: the order of the tag groups is stable on ties. Whenever `a` occurs before `b`
in `group` (the pair is a sublist) and both have the same `totalCount`, `a` occurs
before `b` in `sortedGroups`; more generally every run of groups that is already
non-increasing in `totalCount` keeps its order. -/
theorem sortedGroups_stable (group : List TagGroup) :
    (∀ a b : TagGroup, a.totalCount = b.totalCount → [a, b].Sublist group →
      [a, b].Sublist (TagsPage.sortedGroups group)) ∧
    (∀ c : List TagGroup, c.Pairwise (fun a b => a.totalCount ≥ b.totalCount) →
      c.Sublist group → c.Sublist (TagsPage.sortedGroups group)) := by
  have hgen : ∀ c : List TagGroup, c.Pairwise (fun a b => a.totalCount ≥ b.totalCount) →
      c.Sublist group → c.Sublist (TagsPage.sortedGroups group) := by
    intro c hc hsub
    refine arraySort_sublist TagsPage.compare ?_ hsub
    exact List.Pairwise.imp (fun {a b} h => (TagsPage.compare_le_zero a b).mpr h) hc
  refine ⟨?_, hgen⟩
  intro a b hab hsub
  refine hgen [a, b] ?_ hsub
  simp [hab]

/-! ## Lemmas on grouping -/

theorem totalCountSum_incrementCount (tag : String) (groups : List TagGroup) :
    totalCountSum (incrementCount tag groups) = totalCountSum groups + 1 := by
  induction groups with
  | nil => simp [incrementCount, totalCountSum]
  | cons g rest ih =>
    unfold totalCountSum at ih ⊢
    unfold incrementCount
    split_ifs with h
    · simp only [List.map_cons, List.sum_cons]
      omega
    · simp only [List.map_cons, List.sum_cons, ih]
      omega

theorem totalCountSum_foldl_tags (tags : List String) (acc : List TagGroup) :
    totalCountSum (tags.foldl (fun acc tag => incrementCount tag acc) acc) =
      totalCountSum acc + tags.length := by
  induction tags generalizing acc with
  | nil => simp
  | cons t ts ih =>
    simp only [List.foldl_cons, List.length_cons, ih, totalCountSum_incrementCount]
    omega

theorem totalCountSum_foldl_nodes (nodes : List Post) (acc : List TagGroup) :
    totalCountSum (nodes.foldl
      (fun acc node =>
        node.frontmatter.tags.foldl (fun acc tag => incrementCount tag acc) acc) acc) =
      totalCountSum acc + tagLengthSum nodes := by
  induction nodes generalizing acc with
  | nil => simp [tagLengthSum]
  | cons n ns ih =>
    simp only [List.foldl_cons, ih, totalCountSum_foldl_tags]
    simp only [tagLengthSum, List.map_cons, List.sum_cons]
    omega

/-- Grouping counts every tag occurrence of every node exactly once. -/
theorem totalCountSum_groupByTags (nodes : List Post) :
    totalCountSum (groupByTags nodes) = tagLengthSum nodes := by
  unfold groupByTags
  rw [totalCountSum_foldl_nodes]
  simp [totalCountSum]

theorem totalCountSum_perm {g₁ g₂ : List TagGroup} (h : g₁.Perm g₂) :
    totalCountSum g₁ = totalCountSum g₂ := by
  unfold totalCountSum
  exact (h.map (fun g => g.totalCount)).sum_eq

/-- The page lists groups whose counts add up to the tag occurrences of the first
`queryLimit` posts. -/
theorem totalCountSum_listedGroups (posts : List Post) :
    totalCountSum (TagsPage.listedGroups posts) = tagLengthSum (posts.take queryLimit) := by
  unfold TagsPage.listedGroups TagsPage.sortedGroups TagsPage.pageQuery
  rw [totalCountSum_perm (arraySort_perm _ _), totalCountSum_groupByTags]

theorem tagLengthSum_map_goPost (l : List Nat) : tagLengthSum (l.map goPost) = l.length := by
  induction l with
  | nil => rfl
  | cons i l ih =>
    simp only [tagLengthSum, List.map_cons, List.sum_cons, List.length_cons] at ih ⊢
    rw [ih]
    simp [goPost, Nat.add_comm]

/-! ## Claim C2 -/

/-- C2, as amended: for every collection of at most 2000 posts (the `limit` of the
query), the `totalCount`s of the groups the tags page lists add up to the sum over all
posts of the length of the post's tag list; and for every `group`, the sort in
`TagsPage` yields a permutation of `group`, dropping and duplicating none. -/
theorem listedGroups_sum_of_le_limit (posts : List Post) (h : posts.length ≤ 2000) :
    totalCountSum (TagsPage.listedGroups posts) = tagLengthSum posts ∧
    (TagsPage.listedGroups posts).Perm (TagsPage.pageQuery posts) ∧
    ∀ group : List TagGroup, (TagsPage.sortedGroups group).Perm group := by
  refine ⟨?_, arraySort_perm _ _, fun group => arraySort_perm _ group⟩
  rw [totalCountSum_listedGroups, List.take_of_length_le]
  exact h

/-- Witness for C2 on the spec's example: two posts tagged `go, rust` and `go` give the
groups `go (2)`, `rust (1)`, three tag occurrences in all. -/
theorem listedGroups_sum_of_le_limit_witness :
    examplePosts.length ≤ 2000 ∧
    TagsPage.listedGroups examplePosts =
      [{ fieldValue := "go", totalCount := 2 }, { fieldValue := "rust", totalCount := 1 }] ∧
    totalCountSum (TagsPage.listedGroups examplePosts) = tagLengthSum examplePosts :=
  ⟨by decide, by decide,
    (listedGroups_sum_of_le_limit examplePosts (by decide)).1⟩

/-- C2 fails as stated: 2001 posts with one tag each have 2001 tag occurrences, and the
groups listed by the tags page count 2000 of them. -/
theorem listedGroups_sum_counterexample :
    (List.range 2001).map goPost ≠ [] ∧
    totalCountSum (TagsPage.listedGroups ((List.range 2001).map goPost)) = 2000 ∧
    tagLengthSum ((List.range 2001).map goPost) = 2001 ∧
    totalCountSum (TagsPage.listedGroups ((List.range 2001).map goPost)) ≠
      tagLengthSum ((List.range 2001).map goPost) := by
  have h₁ : totalCountSum (TagsPage.listedGroups ((List.range 2001).map goPost)) = 2000 := by
    rw [totalCountSum_listedGroups, ← List.map_take, tagLengthSum_map_goPost]
    simp [queryLimit]
  have h₂ : tagLengthSum ((List.range 2001).map goPost) = 2001 := by
    rw [tagLengthSum_map_goPost]
    simp
  refine ⟨?_, h₁, h₂, ?_⟩
  · intro h
    have := congrArg List.length h
    simp at this
  · rw [h₁, h₂]
    decide

/-! ## Lemmas on the per-tag query -/

theorem Tags.tagFilter_iff (tag : String) (node : Post) :
    Tags.tagFilter tag node = true ↔ tag ∈ node.frontmatter.tags := by
  unfold Tags.tagFilter
  simp

theorem Tags.filter_tagFilter (posts : List Post) (tag : String) :
    posts.filter (Tags.tagFilter tag) =
      posts.filter (fun p => decide (tag ∈ p.frontmatter.tags)) := by
  apply List.filter_congr
  intro p _
  by_cases h : tag ∈ p.frontmatter.tags
  · simp [h, (Tags.tagFilter_iff tag p).mpr h]
  · have : Tags.tagFilter tag p = false := by
      cases hf : Tags.tagFilter tag p
      · rfl
      · exact absurd ((Tags.tagFilter_iff tag p).mp hf) h
    simp [h, this]

theorem Tags.compareDateDesc_le_zero (a b : Post) :
    Tags.compareDateDesc a b ≤ 0 ↔ b.frontmatter.date ≤ a.frontmatter.date := by
  unfold Tags.compareDateDesc
  omega

theorem Tags.edges_eq (posts : List Post) (tag : String) :
    (Tags.pageQuery posts tag).edges =
      (arraySort Tags.compareDateDesc
        (posts.filter (fun p => decide (tag ∈ p.frontmatter.tags)))).take queryLimit := by
  unfold Tags.pageQuery
  simp only [Tags.filter_tagFilter]

theorem Tags.edges_sublist (posts : List Post) (tag : String) :
    ((Tags.pageQuery posts tag).edges).Sublist
      (arraySort Tags.compareDateDesc
        (posts.filter (fun p => decide (tag ∈ p.frontmatter.tags)))) := by
  rw [Tags.edges_eq]
  exact List.take_sublist _ _

theorem Tags.edges_sorted (posts : List Post) (tag : String) :
    ((Tags.pageQuery posts tag).edges).Pairwise
      (fun a b => a.frontmatter.date ≥ b.frontmatter.date) :=
  List.Pairwise.sublist (Tags.edges_sublist posts tag)
    (arraySort_pairwise_key Tags.compareDateDesc (fun p => p.frontmatter.date)
      Tags.compareDateDesc_le_zero _)

theorem Tags.edges_length (posts : List Post) (tag : String) :
    (Tags.pageQuery posts tag).edges.length =
      min queryLimit
        (posts.filter (fun p => decide (tag ∈ p.frontmatter.tags))).length := by
  rw [Tags.edges_eq, List.length_take, arraySort_length]

theorem Tags.renderPosts_node (edges : List Post) :
    (Tags.renderPosts edges).map (fun e => e.node) = edges := by
  unfold Tags.renderPosts
  rw [List.map_map]
  exact List.map_id _

/-! ## Claim C4 -/

/-- C4, as amended: for every collection of posts and every tag string `t` carried by at
most 2000 of them (the `limit` of the query), the per-tag listing is a rearrangement of
exactly the posts whose tag sequence has an element equal to `t` (equality of whole
strings), it is ordered by publication date descending, and the template renders the
posts in that same order, each keyed by its slug. For every number of matches, only
posts carrying `t` are listed, and when no post carries `t` the listing is empty. -/
theorem tagListing_exact_of_le_limit (posts : List Post) (t : String)
    (h : (posts.filter (fun p => decide (t ∈ p.frontmatter.tags))).length ≤ 2000) :
    ((Tags.pageQuery posts t).edges).Perm
      (posts.filter (fun p => decide (t ∈ p.frontmatter.tags))) ∧
    (∀ p : Post, p ∈ (Tags.pageQuery posts t).edges ↔ p ∈ posts ∧ t ∈ p.frontmatter.tags) ∧
    ((Tags.pageQuery posts t).edges).Pairwise
      (fun a b => a.frontmatter.date ≥ b.frontmatter.date) ∧
    (Tags.renderPosts (Tags.pageQuery posts t).edges).map (fun e => e.node) =
      (Tags.pageQuery posts t).edges ∧
    (Tags.renderPosts (Tags.pageQuery posts t).edges).map (fun e => e.key) =
      ((Tags.pageQuery posts t).edges).map (fun p => p.fields.slug) ∧
    ((∀ p ∈ posts, t ∉ p.frontmatter.tags) → (Tags.pageQuery posts t).edges = []) := by
  have hperm : ((Tags.pageQuery posts t).edges).Perm
      (posts.filter (fun p => decide (t ∈ p.frontmatter.tags))) := by
    rw [Tags.edges_eq, List.take_of_length_le]
    · exact arraySort_perm _ _
    · rw [arraySort_length]
      exact h
  refine ⟨hperm, ?_, Tags.edges_sorted posts t, Tags.renderPosts_node _, ?_, ?_⟩
  · intro p
    rw [hperm.mem_iff]
    simp
  · unfold Tags.renderPosts
    simp
  · intro hnone
    have hnil : posts.filter (fun p => decide (t ∈ p.frontmatter.tags)) = [] := by
      rw [List.filter_eq_nil_iff]
      intro p hp
      simpa using hnone p hp
    rw [Tags.edges_eq, hnil]
    rfl

/-- Witness for C4: of five tags `golang`, `Go`, `go`, `go`, `rust` only the two posts
tagged `go` are listed for `go`, the newer first; a substring or another case does not
match, and a tag no post carries gives the empty listing. -/
theorem tagListing_exact_of_le_limit_witness :
    (mixedPosts.filter (fun p => decide ("go" ∈ p.frontmatter.tags))).length ≤ 2000 ∧
    ((Tags.pageQuery mixedPosts "go").edges).map (fun p => p.fields.slug) = ["/a/", "/b/"] ∧
    (Tags.pageQuery mixedPosts "python").edges = [] ∧
    ((Tags.pageQuery mixedPosts "go").edges).Pairwise
      (fun a b => a.frontmatter.date ≥ b.frontmatter.date) :=
  ⟨by decide, by decide, by decide,
    (tagListing_exact_of_le_limit mixedPosts "go" (by decide)).2.2.1⟩

/-- C4 fails as stated: when 2001 posts carry the tag `go`, the per-tag listing holds
2000 posts, so it is not a rearrangement of the posts carrying the tag. -/
theorem tagListing_counterexample :
    (((List.range 2001).map goPost).filter
      (fun p => decide ("go" ∈ p.frontmatter.tags))).length = 2001 ∧
    (Tags.pageQuery ((List.range 2001).map goPost) "go").edges.length = 2000 ∧
    ¬ ((Tags.pageQuery ((List.range 2001).map goPost) "go").edges).Perm
      (((List.range 2001).map goPost).filter
        (fun p => decide ("go" ∈ p.frontmatter.tags))) := by
  have hall : ((List.range 2001).map goPost).filter
      (fun p => decide ("go" ∈ p.frontmatter.tags)) = (List.range 2001).map goPost := by
    rw [List.filter_eq_self]
    intro p hp
    rw [List.mem_map] at hp
    obtain ⟨i, _, rfl⟩ := hp
    simp [goPost]
  have hlen : (((List.range 2001).map goPost).filter
      (fun p => decide ("go" ∈ p.frontmatter.tags))).length = 2001 := by
    rw [hall]
    simp
  have hedges : (Tags.pageQuery ((List.range 2001).map goPost) "go").edges.length = 2000 := by
    rw [Tags.edges_length, hlen]
    decide
  refine ⟨hlen, hedges, ?_⟩
  intro hperm
  have := hperm.length_eq
  rw [hlen, hedges] at this
  exact absurd this (by decide)

/-! ## Lemmas on the isotype series -/

namespace IsotypeSeries

/-- The value scale is linear: every image is the baseline less so many units. -/
theorem Plot.valueScale_linear (plot : Plot) (v : ℚ) :
    plot.valueScale v = plot.valueScale 0 - v * (plot.valueScale 0 - plot.valueScale 1) := by
  unfold Plot.valueScale
  ring

theorem Plot.valueDomain_width_nonneg (plot : Plot) (hmax : 0 ≤ plot.valueMax) :
    0 ≤ plot.valueDomain.2 - plot.valueDomain.1 := by
  unfold Plot.valueDomain
  split_ifs
  · norm_num
  · simpa using hmax

/-- One unit of the value scale is a non-negative distance towards the top. -/
theorem Plot.unit_nonneg (plot : Plot) (hh : 0 ≤ plot.plotHeight) (hmax : 0 ≤ plot.valueMax) :
    0 ≤ plot.valueScale 0 - plot.valueScale 1 := by
  have hunit : plot.valueScale 0 - plot.valueScale 1 =
      plot.plotHeight / (plot.valueDomain.2 - plot.valueDomain.1) := by
    unfold Plot.valueScale
    ring
  rw [hunit]
  exact div_nonneg hh (Plot.valueDomain_width_nonneg plot hmax)

theorem Plot.heightPerIcon_series (Icon : Type) (plot : Plot)
    (hh : 0 ≤ plot.plotHeight) (hmax : 0 ≤ plot.valueMax) :
    heightPerIcon (plot.series Icon) = plot.valueScale 0 - plot.valueScale 1 := by
  have hval : (plot.series Icon).valueFunctor (unitDatum Icon) -
      (plot.series Icon).value0Functor (emptyDatum Icon) =
      -(plot.valueScale 0 - plot.valueScale 1) := by
    simp only [Plot.series, unitDatum, Nat.cast_one]
    ring
  unfold heightPerIcon
  rw [hval, abs_neg, abs_of_nonneg (Plot.unit_nonneg plot hh hmax)]

/-- The image of a count is the baseline less that many icon heights. -/
theorem Plot.valueScale_count (Icon : Type) (plot : Plot)
    (hh : 0 ≤ plot.plotHeight) (hmax : 0 ≤ plot.valueMax) (k : Nat) :
    plot.valueScale (k : ℚ) = plot.baseline - (k : ℚ) * heightPerIcon (plot.series Icon) := by
  rw [Plot.heightPerIcon_series Icon plot hh hmax, Plot.valueScale_linear plot (k : ℚ)]
  rfl

theorem Plot.widthPerCategory_nonneg (plot : Plot) (hw : 0 ≤ plot.plotWidth) :
    0 ≤ plot.widthPerCategory := by
  unfold Plot.widthPerCategory
  exact div_nonneg hw (Nat.cast_nonneg _)

theorem heightPerIcon_nonneg {Icon : Type} (self : Series Icon) : 0 ≤ heightPerIcon self :=
  abs_nonneg _

/-- With a scale factor in `[0, 1]` and a non-negative band width, the icon is no larger
than a band and no higher than a unit. -/
theorem size_le {Icon : Type} (self : Series Icon) (props : Props Icon)
    (hw : 0 ≤ widthPerIcon self) (hs0 : 0 ≤ scaleFactor props) (hs1 : scaleFactor props ≤ 1) :
    size self props ≤ widthPerIcon self ∧ size self props ≤ heightPerIcon self ∧
      0 ≤ size self props := by
  have hmin : 0 ≤ min (widthPerIcon self) (heightPerIcon self) :=
    le_min hw (heightPerIcon_nonneg self)
  have hle : size self props ≤ min (widthPerIcon self) (heightPerIcon self) := by
    unfold size
    exact mul_le_of_le_one_right hmin hs1
  exact ⟨le_trans hle (min_le_left _ _), le_trans hle (min_le_right _ _),
    mul_nonneg hmin hs0⟩

/-- With unique labels, the centre of the band of the `i`-th column is `i + 1/2` band
widths from the left edge. -/
theorem Plot.categoryCenter_getElem {Icon : Type} (plot : Plot) (data : List (Column Icon))
    (hcat : plot.categories = data.map (fun c => c.x))
    (hnodup : (data.map (fun c => c.x)).Nodup) (i : Nat) (hi : i < data.length) :
    plot.categoryCenter (data[i]).x =
      ((i : ℚ) + 1 / 2) * (plot.plotWidth / (data.length : ℚ)) := by
  have hidx : (data.map (fun c => c.x)).indexOf (data[i]).x = i := by
    have h := List.indexOf_getElem hnodup i (by simpa using hi)
    simpa using h
  unfold Plot.categoryCenter Plot.widthPerCategory
  rw [hcat, hidx, List.length_map]

theorem story_heightPerIcon : heightPerIcon (storyPlot.series String) = 20 := by
  rw [Plot.heightPerIcon_series String storyPlot (by norm_num [storyPlot])
    (by norm_num [storyPlot])]
  norm_num [Plot.valueScale, Plot.valueDomain, storyPlot]

theorem story_size : size (storyPlot.series String) storyProps = 17 := by
  unfold size
  rw [story_heightPerIcon]
  norm_num [storyPlot, widthPerIcon, Plot.series, Plot.widthPerCategory, scaleFactor,
    storyProps]

theorem dataPointsForColumn_of_lt {Icon : Type} (column : Column Icon)
    (h : column.y < 2 ^ 32) :
    dataPointsForColumn column =
      .ok ((List.range column.y).map (fun i => pointAt column (i + 1))) := by
  unfold dataPointsForColumn
  rw [if_pos h]
  rfl

theorem renderColumn_of_lt {Icon : Type} (self : Series Icon) (props : Props Icon)
    (column : Column Icon) (h : column.y < 2 ^ 32) :
    renderColumn self props column =
      .ok { key := column.x,
            hovered := column,
            rect := rectAttrs self props column,
            symbols := (List.range column.y).map (fun i =>
              renderSymbol (symbolAttrs self props column (pointAt column (i + 1)))) } := by
  unfold renderColumn
  rw [dataPointsForColumn_of_lt column h]
  simp only [List.map_map]
  rfl

theorem renderColumn_of_not_lt {Icon : Type} (self : Series Icon) (props : Props Icon)
    (column : Column Icon) (h : ¬ column.y < 2 ^ 32) :
    renderColumn self props column = .error JsError.rangeError := by
  unfold renderColumn dataPointsForColumn
  rw [if_neg h]

theorem renderColumns_of_lt {Icon : Type} (self : Series Icon) (props : Props Icon)
    (data : List (Column Icon)) (h : ∀ c ∈ data, c.y < 2 ^ 32) :
    renderColumns self props data =
      .ok (data.map (fun column =>
        { key := column.x,
          hovered := column,
          rect := rectAttrs self props column,
          symbols := (List.range column.y).map (fun i =>
            renderSymbol (symbolAttrs self props column (pointAt column (i + 1)))) })) := by
  induction data with
  | nil => rfl
  | cons column rest ih =>
    have hc : column.y < 2 ^ 32 := h column (List.mem_cons_self _ _)
    have hrest : ∀ c ∈ rest, c.y < 2 ^ 32 := fun c hcm => h c (List.mem_cons_of_mem _ hcm)
    simp only [renderColumns, renderColumn_of_lt self props column hc, ih hrest, List.map_cons]

theorem renderColumns_ok_lt {Icon : Type} (self : Series Icon) (props : Props Icon)
    (data : List (Column Icon)) (groups : List (ColumnGroup Icon))
    (h : renderColumns self props data = .ok groups) : ∀ c ∈ data, c.y < 2 ^ 32 := by
  induction data generalizing groups with
  | nil => simp
  | cons column rest ih =>
    by_cases hc : column.y < 2 ^ 32
    · rw [renderColumns, renderColumn_of_lt self props column hc] at h
      cases hrest : renderColumns self props rest with
      | error e => simp [hrest] at h
      | ok gs =>
        intro c hcm
        rcases List.mem_cons.mp hcm with rfl | hmem
        · exact hc
        · exact ih gs hrest c hmem
    · rw [renderColumns, renderColumn_of_not_lt self props column hc] at h
      simp at h

/-- When every count is an array length, `render` returns the group of the column
groups, one per column and in the order of `data`. -/
theorem render_of_lt {Icon : Type} (self : Series Icon) (props : Props Icon)
    (data : List (Column Icon)) (hdata : props.data = some data)
    (h : ∀ c ∈ data, c.y < 2 ^ 32) :
    render self props =
      .ok (some { translate := (props.marginLeft, props.marginTop),
                  columns := data.map (fun column =>
                    { key := column.x,
                      hovered := column,
                      rect := rectAttrs self props column,
                      symbols := (List.range column.y).map (fun i =>
                        renderSymbol
                          (symbolAttrs self props column (pointAt column (i + 1)))) }) }) := by
  unfold render
  rw [hdata]
  simp only [renderColumns_of_lt self props data h]

/-- When `render` returns a group, every count is an array length. -/
theorem render_ok_lt {Icon : Type} (self : Series Icon) (props : Props Icon)
    (data : List (Column Icon)) (hdata : props.data = some data) (g : SeriesGroup Icon)
    (h : render self props = .ok (some g)) : ∀ c ∈ data, c.y < 2 ^ 32 := by
  unfold render at h
  rw [hdata] at h
  cases hcols : renderColumns self props data with
  | error e => simp [hcols] at h
  | ok groups => exact renderColumns_ok_lt self props data groups hcols

/-- When a column raises, so does `render`. -/
theorem render_error {Icon : Type} (self : Series Icon) (props : Props Icon)
    (column : Column Icon) (rest : List (Column Icon))
    (hdata : props.data = some (column :: rest)) (h : ¬ column.y < 2 ^ 32) :
    render self props = .error JsError.rangeError := by
  unfold render
  rw [hdata]
  simp only [renderColumns, renderColumn_of_not_lt self props column h]

/-- In exact arithmetic the icon of any point of column `i` ends before the icon of any
point of a later column `j` begins. -/
theorem symbolAttrs_horizontal {Icon : Type} (plot : Plot) (props : Props Icon)
    (data : List (Column Icon)) (hcat : plot.categories = data.map (fun c => c.x))
    (hnodup : (data.map (fun c => c.x)).Nodup) (hw : 0 ≤ plot.plotWidth)
    (hs0 : 0 < scaleFactor props) (hs1 : scaleFactor props ≤ 1)
    (i j : Nat) (hi : i < data.length) (hj : j < data.length) (hij : i < j) (k k' : Nat) :
    (symbolAttrs (plot.series Icon) props data[i] (pointAt data[i] k)).x +
        (symbolAttrs (plot.series Icon) props data[i] (pointAt data[i] k)).width ≤
      (symbolAttrs (plot.series Icon) props data[j] (pointAt data[j] k')).x := by
  have hwn : 0 ≤ widthPerIcon (plot.series Icon) := Plot.widthPerCategory_nonneg plot hw
  obtain ⟨hsw, _, _⟩ := size_le (plot.series Icon) props hwn (le_of_lt hs0) hs1
  have hci := Plot.categoryCenter_getElem plot data hcat hnodup i hi
  have hcj := Plot.categoryCenter_getElem plot data hcat hnodup j hj
  have hwidth : widthPerIcon (plot.series Icon) = plot.plotWidth / (data.length : ℚ) := by
    show plot.widthPerCategory = _
    unfold Plot.widthPerCategory
    rw [hcat, List.length_map]
  have hstep : (0 : ℚ) ≤ plot.plotWidth / (data.length : ℚ) := by
    rw [← hwidth]
    exact hwn
  have hij' : (i : ℚ) + 1 ≤ (j : ℚ) := by exact_mod_cast hij
  show plot.categoryCenter (data[i]).x - size (plot.series Icon) props / 2 +
      size (plot.series Icon) props ≤
    plot.categoryCenter (data[j]).x - size (plot.series Icon) props / 2
  rw [hci, hcj]
  rw [hwidth] at hsw
  nlinarith [mul_nonneg (sub_nonneg.mpr hij') hstep]

/-- In exact arithmetic the icon of a higher point of a column ends no lower than where
the icon of a lower point begins. -/
theorem symbolAttrs_vertical {Icon : Type} (plot : Plot) (props : Props Icon)
    (column : Column Icon) (hw : 0 ≤ plot.plotWidth) (hh : 0 ≤ plot.plotHeight)
    (hmax : 0 ≤ plot.valueMax) (hs0 : 0 < scaleFactor props) (hs1 : scaleFactor props ≤ 1)
    (k k' : Nat) (hkk : k < k') :
    (symbolAttrs (plot.series Icon) props column (pointAt column k')).y +
        (symbolAttrs (plot.series Icon) props column (pointAt column k')).height ≤
      (symbolAttrs (plot.series Icon) props column (pointAt column k)).y := by
  have hwn : 0 ≤ widthPerIcon (plot.series Icon) := Plot.widthPerCategory_nonneg plot hw
  obtain ⟨_, hsh, _⟩ := size_le (plot.series Icon) props hwn (le_of_lt hs0) hs1
  have hk : (k : ℚ) + 1 ≤ (k' : ℚ) := by exact_mod_cast hkk
  have hnn := Plot.unit_nonneg plot hh hmax
  show plot.valueScale ((k' : Nat) : ℚ) + size (plot.series Icon) props ≤
    plot.valueScale ((k : Nat) : ℚ)
  rw [Plot.valueScale_linear plot (k' : ℚ), Plot.valueScale_linear plot (k : ℚ)]
  rw [Plot.heightPerIcon_series Icon plot hh hmax] at hsh
  nlinarith [mul_nonneg (sub_nonneg.mpr hk) hnn]

set_option maxRecDepth 100000 in
/-- The value scale of the story's plot in binary64 arithmetic, with the interpolator
`a * (1 - t) + b * t`: the images of 0 and 1 are exact, that of 5 falls short of 120 and
that of 6 exceeds 100. -/
theorem story_double_weighted :
    (storyPlot.doubleValueScale .weighted 0).toRat = 220 ∧
    (storyPlot.doubleValueScale .weighted 1).toRat = 200 ∧
    (storyPlot.doubleValueScale .weighted 5).toRat = 8444249301319679 / 70368744177664 ∧
    (storyPlot.doubleValueScale .weighted 6).toRat = 7036874417766401 / 70368744177664 := by
  have h0 : storyPlot.doubleValueScale .weighted 0 = ⟨7740561859543040, -45⟩ := by decide
  have h1 : storyPlot.doubleValueScale .weighted 1 = ⟨7036874417766400, -45⟩ := by decide
  have h5 : storyPlot.doubleValueScale .weighted 5 = ⟨8444249301319679, -46⟩ := by decide
  have h6 : storyPlot.doubleValueScale .weighted 6 = ⟨7036874417766401, -46⟩ := by decide
  rw [h0, h1, h5, h6]
  norm_num [Double.toRat]

set_option maxRecDepth 100000 in
/-- The value scale of the story's plot in binary64 arithmetic, with the interpolator
`a + (b - a) * t`: the images of 0, 1 and 5 are exact and that of 6 exceeds 100. -/
theorem story_double_offset :
    (storyPlot.doubleValueScale .offset 0).toRat = 220 ∧
    (storyPlot.doubleValueScale .offset 1).toRat = 200 ∧
    (storyPlot.doubleValueScale .offset 5).toRat = 120 ∧
    (storyPlot.doubleValueScale .offset 6).toRat = 7036874417766401 / 70368744177664 := by
  have h0 : storyPlot.doubleValueScale .offset 0 = ⟨7740561859543040, -45⟩ := by decide
  have h1 : storyPlot.doubleValueScale .offset 1 = ⟨7036874417766400, -45⟩ := by decide
  have h5 : storyPlot.doubleValueScale .offset 5 = ⟨8444249301319680, -46⟩ := by decide
  have h6 : storyPlot.doubleValueScale .offset 6 = ⟨7036874417766401, -46⟩ := by decide
  rw [h0, h1, h5, h6]
  norm_num [Double.toRat]

/-- In binary64 arithmetic too the story's unit is 20 high, under either interpolator. -/
theorem story_double_heightPerIcon (interpolator : Interpolator) :
    heightPerIcon (storyPlot.doubleSeries String interpolator) = 20 := by
  cases interpolator
  · show |(storyPlot.doubleValueScale .offset 1).toRat -
      (storyPlot.doubleValueScale .offset 0).toRat| = 20
    rw [story_double_offset.1, story_double_offset.2.1]
    norm_num
  · show |(storyPlot.doubleValueScale .weighted 1).toRat -
      (storyPlot.doubleValueScale .weighted 0).toRat| = 20
    rw [story_double_weighted.1, story_double_weighted.2.1]
    norm_num

/-- With `scaleFactor = 1` the story's icons are 20 wide and high. -/
theorem story_double_size (interpolator : Interpolator) :
    size (storyPlot.doubleSeries String interpolator) touchingProps = 20 := by
  unfold size
  rw [story_double_heightPerIcon]
  norm_num [storyPlot, widthPerIcon, Plot.doubleSeries, Plot.widthPerCategory, scaleFactor,
    touchingProps]

/-- The entry for point `k` of the list of the points `1, ..., n`. -/
theorem range_map_getElem? {α : Type} (f : Nat → α) (n k : Nat) (hk1 : 1 ≤ k) :
    ((List.range n).map (fun j => f (j + 1)))[k - 1]? =
      if k ≤ n then some (f k) else none := by
  split_ifs with h
  · have hlt : k - 1 < n := by omega
    rw [List.getElem?_map, List.getElem?_range hlt]
    simp [Nat.sub_add_cancel hk1]
  · rw [List.getElem?_eq_none]
    simp
    omega

/-- The symbols of the `i`-th column group, as `render` lists them. -/
theorem render_columns_getElem {Icon : Type} (self : Series Icon) (props : Props Icon)
    (data : List (Column Icon)) (hdata : props.data = some data)
    (h : ∀ c ∈ data, c.y < 2 ^ 32) :
    ∃ g : SeriesGroup Icon, render self props = .ok (some g) ∧
      g.translate = (props.marginLeft, props.marginTop) ∧
      g.columns.length = data.length ∧
      ∀ (i : Nat) (hi : i < data.length) (hg : i < g.columns.length),
        (g.columns[i]).key = (data[i]).x ∧
        (g.columns[i]).hovered = data[i] ∧
        (g.columns[i]).rect = rectAttrs self props data[i] ∧
        (g.columns[i]).symbols = (List.range (data[i]).y).map (fun j =>
          renderSymbol (symbolAttrs self props data[i] (pointAt data[i] (j + 1)))) := by
  refine ⟨_, render_of_lt self props data hdata h, rfl, by simp, ?_⟩
  intro i hi hg
  simp only [List.getElem_map]
  simp

end IsotypeSeries

/-! ## Claim C6 -/

/-- C6, as amended: for every column whose count `n = column.y` is below `2 ^ 32` (the
lengths `Array(n)` accepts), `render` expands the column into exactly `n` data points;
their `y` fields are `1, 2, ..., n` in that order, their other fields (`x`, `fill`,
`icon`) are the column's, and a column of count `0` yields no points. -/
theorem dataPoints_expand_of_lt {Icon : Type} (column : IsotypeSeries.Column Icon)
    (h : column.y < 2 ^ 32) :
    ∃ points : List (IsotypeSeries.Column Icon),
      IsotypeSeries.dataPointsForColumn column = .ok points ∧
      points.length = column.y ∧
      points.map (fun d => d.y) = List.range' 1 column.y ∧
      (∀ d ∈ points, d.x = column.x ∧ d.fill = column.fill ∧ d.icon = column.icon) ∧
      (column.y = 0 → points = []) := by
  refine ⟨_, IsotypeSeries.dataPointsForColumn_of_lt column h, ?_, ?_, ?_, ?_⟩
  · simp
  · rw [List.map_map, List.range_eq_range']
    have hfun : ((fun d : IsotypeSeries.Column Icon => d.y) ∘
        fun i => IsotypeSeries.pointAt column (i + 1)) = fun i => i + 1 := by
      funext i
      rfl
    rw [hfun]
    apply List.ext_getElem
    · simp
    · intro i h₁ h₂
      simp [Nat.add_comm]
  · intro d hd
    rw [List.mem_map] at hd
    obtain ⟨i, _, rfl⟩ := hd
    exact ⟨rfl, rfl, rfl⟩
  · intro h0
    rw [h0]
    rfl

/-- Witness for C6 on the story: the columns Clock 8, Cat 11 and Lock 3 expand into 8,
11 and 3 points, the three of Lock with `y` equal to 1, 2 and 3. -/
theorem dataPoints_expand_of_lt_witness :
    IsotypeSeries.clockColumn.y < 2 ^ 32 ∧
    (∃ points : List (IsotypeSeries.Column String),
      IsotypeSeries.dataPointsForColumn IsotypeSeries.clockColumn = .ok points ∧
      points.length = 8 ∧
      points.map (fun d => d.y) = List.range' 1 8 ∧
      (∀ d ∈ points, d.x = "Clock" ∧ d.fill = none ∧ d.icon = some "faClock") ∧
      ((8 : Nat) = 0 → points = [])) ∧
    (IsotypeSeries.dataPointsForColumn IsotypeSeries.catColumn).map List.length = .ok 11 ∧
    (IsotypeSeries.dataPointsForColumn IsotypeSeries.lockColumn).map
      (fun points => points.map (fun d => d.y)) = .ok [1, 2, 3] :=
  ⟨by decide, dataPoints_expand_of_lt IsotypeSeries.clockColumn (by decide), rfl, rfl⟩

/-- C6 fails as stated: for the count `2 ^ 32`, a non-negative integer, `Array(column.y)`
raises a `RangeError` and no data point is produced. -/
theorem dataPoints_counterexample :
    IsotypeSeries.dataPointsForColumn
      ({ x := "Clock", y := 4294967296, fill := none, icon := none } :
        IsotypeSeries.Column String) = .error JsError.rangeError := by
  unfold IsotypeSeries.dataPointsForColumn
  rw [if_neg (by decide)]

/-! ## Claim C7 -/

/-- C7: the icon size of `render` is `min(width per category, height per unit) *
scaleFactor`, where the height per unit is `|valueFunctor({ y: 1 }) - value0Functor({})|`
and `scaleFactor` is `0.85` when the prop is not supplied; every icon gets
`width = height = size`, also after `renderSymbol`. In a plot with a band scale and a
zero-based linear scale, the width per category is `plotWidth / number of categories` and
the height per unit is `|valueScale(1) - valueScale(0)|`. -/
theorem icon_size_formula {Icon : Type} (self : IsotypeSeries.Series Icon)
    (props : IsotypeSeries.Props Icon) (plot : IsotypeSeries.Plot) :
    IsotypeSeries.size self props =
      min self.scaleDistanceX
        |self.valueFunctor (IsotypeSeries.unitDatum Icon) -
          self.value0Functor (IsotypeSeries.emptyDatum Icon)| *
        props.scaleFactor.getD (85 / 100) ∧
    IsotypeSeries.size self { props with scaleFactor := none } =
      min self.scaleDistanceX
        |self.valueFunctor (IsotypeSeries.unitDatum Icon) -
          self.value0Functor (IsotypeSeries.emptyDatum Icon)| * (85 / 100) ∧
    (∀ column d : IsotypeSeries.Column Icon,
      (IsotypeSeries.symbolAttrs self props column d).width = IsotypeSeries.size self props ∧
      (IsotypeSeries.symbolAttrs self props column d).height = IsotypeSeries.size self props ∧
      (IsotypeSeries.renderSymbol (IsotypeSeries.symbolAttrs self props column d)).width =
        IsotypeSeries.size self props ∧
      (IsotypeSeries.renderSymbol (IsotypeSeries.symbolAttrs self props column d)).height =
        IsotypeSeries.size self props) ∧
    IsotypeSeries.size (plot.series Icon) props =
      min (plot.plotWidth / plot.categories.length) |plot.valueScale 1 - plot.valueScale 0| *
        props.scaleFactor.getD (85 / 100) := by
  refine ⟨rfl, rfl, fun column d => ⟨rfl, rfl, rfl, rfl⟩, ?_⟩
  simp [IsotypeSeries.size, IsotypeSeries.widthPerIcon, IsotypeSeries.heightPerIcon,
    IsotypeSeries.scaleFactor, IsotypeSeries.Plot.series, IsotypeSeries.unitDatum,
    IsotypeSeries.Plot.widthPerCategory]

/-! ## Claim C8 -/

/-- C8, as amended: with the scales and the icon size evaluated in exact arithmetic, for
every list of columns with unique category labels, in a plot with an equal-width band
scale for `x` and a linear zero-based scale for `y`, and for `0 < scaleFactor ≤ 1`, no
two distinct icons placed by `render` overlap: every icon of a column ends (`x + width`)
no later than every icon of a later column begins, in particular for adjacent
categories, and within one column group the icon of a higher point ends (`y + height`)
no lower than where the icon of a lower point begins, in particular for consecutive
points; the extents may touch at a boundary only. `render` does place the icons, as many
per column as its count, whenever every count is an array length. -/
theorem icons_do_not_overlap {Icon : Type} (plot : IsotypeSeries.Plot)
    (props : IsotypeSeries.Props Icon) (data : List (IsotypeSeries.Column Icon))
    (hdata : props.data = some data)
    (hcat : plot.categories = data.map (fun c => c.x))
    (hnodup : (data.map (fun c => c.x)).Nodup)
    (hw : 0 ≤ plot.plotWidth) (hh : 0 ≤ plot.plotHeight) (hmax : 0 ≤ plot.valueMax)
    (hs0 : 0 < IsotypeSeries.scaleFactor props) (hs1 : IsotypeSeries.scaleFactor props ≤ 1) :
    (∀ g : IsotypeSeries.SeriesGroup Icon,
      IsotypeSeries.render (plot.series Icon) props = .ok (some g) →
        (∀ (i j : Nat) (hi : i < g.columns.length) (hj : j < g.columns.length), i < j →
          ∀ s ∈ (g.columns[i]).symbols, ∀ t ∈ (g.columns[j]).symbols,
            s.x + s.width ≤ t.x) ∧
        (∀ (i : Nat) (hi : i < g.columns.length) (a b : Nat)
          (ha : a < (g.columns[i]).symbols.length) (hb : b < (g.columns[i]).symbols.length),
          a < b →
            ((g.columns[i]).symbols[b]).y + ((g.columns[i]).symbols[b]).height ≤
              ((g.columns[i]).symbols[a]).y)) ∧
    ((∀ c ∈ data, c.y < 2 ^ 32) →
      ∃ g : IsotypeSeries.SeriesGroup Icon,
        IsotypeSeries.render (plot.series Icon) props = .ok (some g) ∧
        g.columns.map (fun c => c.symbols.length) = data.map (fun c => c.y)) := by
  constructor
  · intro g hg
    have h32 := IsotypeSeries.render_ok_lt (plot.series Icon) props data hdata g hg
    obtain ⟨g', hg', _, hlen, hcols⟩ :=
      IsotypeSeries.render_columns_getElem (plot.series Icon) props data hdata h32
    have hgg : g = g' := by
      rw [hg] at hg'
      injection hg' with h₁
      injection h₁
    subst hgg
    constructor
    · intro i j hi hj hij s hs t ht
      have hi' : i < data.length := hlen ▸ hi
      have hj' : j < data.length := hlen ▸ hj
      obtain ⟨_, _, _, hsi⟩ := hcols i hi' hi
      obtain ⟨_, _, _, hsj⟩ := hcols j hj' hj
      rw [hsi] at hs
      rw [hsj] at ht
      obtain ⟨a, _, rfl⟩ := List.mem_map.mp hs
      obtain ⟨b, _, rfl⟩ := List.mem_map.mp ht
      exact IsotypeSeries.symbolAttrs_horizontal plot props data hcat hnodup hw hs0 hs1
        i j hi' hj' hij (a + 1) (b + 1)
    · intro i hi a b ha hb hab
      have hi' : i < data.length := hlen ▸ hi
      obtain ⟨_, _, _, hsi⟩ := hcols i hi' hi
      have key : ∀ l : List (IsotypeSeries.Symbol Icon),
          l = (List.range (data[i]).y).map (fun j =>
            IsotypeSeries.renderSymbol (IsotypeSeries.symbolAttrs (plot.series Icon) props
              data[i] (IsotypeSeries.pointAt data[i] (j + 1)))) →
          ∀ (a b : Nat) (ha : a < l.length) (hb : b < l.length), a < b →
            (l[b]).y + (l[b]).height ≤ (l[a]).y := by
        intro l hl
        subst hl
        intro a b ha hb hab
        simp only [List.getElem_map, List.getElem_range]
        exact IsotypeSeries.symbolAttrs_vertical plot props data[i] hw hh hmax hs0 hs1
          (a + 1) (b + 1) (Nat.succ_lt_succ hab)
      exact key _ hsi a b ha hb hab
  · intro h32
    obtain ⟨g, hg, _, hlen, hcols⟩ :=
      IsotypeSeries.render_columns_getElem (plot.series Icon) props data hdata h32
    refine ⟨g, hg, ?_⟩
    apply List.ext_getElem
    · simp [hlen]
    · intro i h₁ h₂
      have hi : i < data.length := by simpa using h₂
      have hgi : i < g.columns.length := by simpa using h₁
      obtain ⟨_, _, _, hsi⟩ := hcols i hi hgi
      simp [hsi]

/-- Witness for C8 on the story (plot 300 by 220, default scale factor): `render` places
8, 11 and 3 icons, and no two of them overlap. -/
theorem icons_do_not_overlap_witness :
    (∃ g : IsotypeSeries.SeriesGroup String,
      IsotypeSeries.render (IsotypeSeries.storyPlot.series String) IsotypeSeries.storyProps =
        .ok (some g) ∧
      g.columns.map (fun c => c.symbols.length) = [8, 11, 3]) ∧
    (∀ g : IsotypeSeries.SeriesGroup String,
      IsotypeSeries.render (IsotypeSeries.storyPlot.series String) IsotypeSeries.storyProps =
        .ok (some g) →
      ∀ (i j : Nat) (hi : i < g.columns.length) (hj : j < g.columns.length), i < j →
        ∀ s ∈ (g.columns[i]).symbols, ∀ t ∈ (g.columns[j]).symbols, s.x + s.width ≤ t.x) :=
  have h := icons_do_not_overlap IsotypeSeries.storyPlot IsotypeSeries.storyProps
    IsotypeSeries.storyData rfl rfl (by decide)
    (by norm_num [IsotypeSeries.storyPlot]) (by norm_num [IsotypeSeries.storyPlot])
    (by norm_num [IsotypeSeries.storyPlot])
    (by norm_num [IsotypeSeries.scaleFactor, IsotypeSeries.storyProps])
    (by norm_num [IsotypeSeries.scaleFactor, IsotypeSeries.storyProps])
  ⟨h.2 (by decide), fun g hg => (h.1 g hg).1⟩

/-- C8 fails as stated: in the story's plot (300 by 220, units 20 high) with
`scaleFactor = 1`, the value scale evaluated in binary64 arithmetic, as the plotting
library evaluates it, puts the sixth icon of Cat at `y = 100.00000000000001`, so that it
ends at `120.00000000000001`, below the top of the fifth icon, which is at
`119.99999999999999` under the interpolator `a * (1 - t) + b * t` and at `120` under
`a + (b - a) * t`: the two icons overlap. -/
theorem icons_overlap_counterexample :
    IsotypeSeries.scaleFactor IsotypeSeries.touchingProps = 1 ∧
    (∃ (g : IsotypeSeries.SeriesGroup String) (cat : IsotypeSeries.ColumnGroup String)
        (s5 s6 : IsotypeSeries.Symbol String),
      IsotypeSeries.render (IsotypeSeries.storyPlot.doubleSeries String .weighted)
        IsotypeSeries.touchingProps = .ok (some g) ∧
      g.columns[1]? = some cat ∧ cat.key = "Cat" ∧
      cat.symbols[4]? = some s5 ∧ cat.symbols[5]? = some s6 ∧
      s5.key = 5 ∧ s6.key = 6 ∧
      s5.y = 8444249301319679 / 70368744177664 ∧
      s6.y = 7036874417766401 / 70368744177664 ∧
      s6.height = 20 ∧
      s5.y < s6.y + s6.height) ∧
    (∃ (g : IsotypeSeries.SeriesGroup String) (cat : IsotypeSeries.ColumnGroup String)
        (s5 s6 : IsotypeSeries.Symbol String),
      IsotypeSeries.render (IsotypeSeries.storyPlot.doubleSeries String .offset)
        IsotypeSeries.touchingProps = .ok (some g) ∧
      g.columns[1]? = some cat ∧ cat.key = "Cat" ∧
      cat.symbols[4]? = some s5 ∧ cat.symbols[5]? = some s6 ∧
      s5.key = 5 ∧ s6.key = 6 ∧
      s5.y = 120 ∧
      s6.y = 7036874417766401 / 70368744177664 ∧
      s6.height = 20 ∧
      s5.y < s6.y + s6.height) := by
  have h32 : ∀ c ∈ IsotypeSeries.storyData, c.y < 2 ^ 32 := by decide
  refine ⟨rfl, ?_, ?_⟩
  · refine ⟨_, _, _, _,
      IsotypeSeries.render_of_lt (IsotypeSeries.storyPlot.doubleSeries String .weighted)
        IsotypeSeries.touchingProps IsotypeSeries.storyData rfl h32,
      rfl, rfl, rfl, rfl, rfl, rfl, ?_, ?_, ?_, ?_⟩
    · exact IsotypeSeries.story_double_weighted.2.2.1
    · exact IsotypeSeries.story_double_weighted.2.2.2
    · exact IsotypeSeries.story_double_size .weighted
    · show (IsotypeSeries.storyPlot.doubleValueScale .weighted 5).toRat <
        (IsotypeSeries.storyPlot.doubleValueScale .weighted 6).toRat +
          IsotypeSeries.size (IsotypeSeries.storyPlot.doubleSeries String .weighted)
            IsotypeSeries.touchingProps
      rw [IsotypeSeries.story_double_weighted.2.2.1, IsotypeSeries.story_double_weighted.2.2.2,
        IsotypeSeries.story_double_size]
      norm_num
  · refine ⟨_, _, _, _,
      IsotypeSeries.render_of_lt (IsotypeSeries.storyPlot.doubleSeries String .offset)
        IsotypeSeries.touchingProps IsotypeSeries.storyData rfl h32,
      rfl, rfl, rfl, rfl, rfl, rfl, ?_, ?_, ?_, ?_⟩
    · exact IsotypeSeries.story_double_offset.2.2.1
    · exact IsotypeSeries.story_double_offset.2.2.2
    · exact IsotypeSeries.story_double_size .offset
    · show (IsotypeSeries.storyPlot.doubleValueScale .offset 5).toRat <
        (IsotypeSeries.storyPlot.doubleValueScale .offset 6).toRat +
          IsotypeSeries.size (IsotypeSeries.storyPlot.doubleSeries String .offset)
            IsotypeSeries.touchingProps
      rw [IsotypeSeries.story_double_offset.2.2.1, IsotypeSeries.story_double_offset.2.2.2,
        IsotypeSeries.story_double_size]
      norm_num

/-! ## Claim C9 -/

/-- C9, as amended: for every list of columns with unique labels whose counts are all
below `2 ^ 32` (the lengths `Array(n)` accepts), every column (the `i`-th) and every
point index `k` in `1..count`, `render` places the icon of point `k`, the `k`-th symbol
of the column's group, at `x = lineFunctor(column) - size / 2` and at `y` the code's
`valueFunctor` applied to the point with `y = k`. Under a band scale and a linear
zero-based value scale evaluated in exact arithmetic these are
`x = category_center - icon_size / 2`, the centre being `i + 1/2` band widths from the
left, and `y = baseline - k * height_per_unit`, the baseline being the image of the base
value `0` that `getParentConfig('y')` asks for; so the points of a column stack upward
from the baseline as `k` grows and all share the column's `x`. -/
theorem icon_position {Icon : Type} (plot : IsotypeSeries.Plot)
    (props : IsotypeSeries.Props Icon) (data : List (IsotypeSeries.Column Icon))
    (hdata : props.data = some data)
    (hcat : plot.categories = data.map (fun c => c.x))
    (hnodup : (data.map (fun c => c.x)).Nodup)
    (hh : 0 ≤ plot.plotHeight) (hmax : 0 ≤ plot.valueMax)
    (h32 : ∀ c ∈ data, c.y < 2 ^ 32) :
    (IsotypeSeries.getParentConfig "y").zeroBaseValue = true ∧
    plot.baseline = (plot.series Icon).value0Functor (IsotypeSeries.emptyDatum Icon) ∧
    ∃ g : IsotypeSeries.SeriesGroup Icon,
      IsotypeSeries.render (plot.series Icon) props = .ok (some g) ∧
      g.columns.length = data.length ∧
      ∀ (i : Nat) (hi : i < data.length) (hg : i < g.columns.length),
        (g.columns[i]).symbols.length = (data[i]).y ∧
        plot.categoryCenter (data[i]).x =
          ((i : ℚ) + 1 / 2) * (plot.plotWidth / (data.length : ℚ)) ∧
        ∀ k : Nat, 1 ≤ k → k ≤ (data[i]).y →
          ∃ s : IsotypeSeries.Symbol Icon,
            (g.columns[i]).symbols[k - 1]? = some s ∧
            s.key = k ∧
            s.x = (plot.series Icon).lineFunctor (data[i]).toDatum -
              IsotypeSeries.size (plot.series Icon) props / 2 ∧
            s.x = plot.categoryCenter (data[i]).x -
              IsotypeSeries.size (plot.series Icon) props / 2 ∧
            s.y = (plot.series Icon).valueFunctor
              (IsotypeSeries.pointAt data[i] k).toDatum ∧
            s.y = plot.baseline - (k : ℚ) * IsotypeSeries.heightPerIcon (plot.series Icon) ∧
            ∀ (k' : Nat) (t : IsotypeSeries.Symbol Icon), k ≤ k' →
              (g.columns[i]).symbols[k' - 1]? = some t → t.y ≤ s.y ∧ t.x = s.x := by
  refine ⟨by decide, rfl, ?_⟩
  obtain ⟨g, hg, _, hlen, hcols⟩ :=
    IsotypeSeries.render_columns_getElem (plot.series Icon) props data hdata h32
  refine ⟨g, hg, hlen, ?_⟩
  intro i hi hgi
  obtain ⟨_, _, _, hsym⟩ := hcols i hi hgi
  refine ⟨by simp [hsym],
    IsotypeSeries.Plot.categoryCenter_getElem plot data hcat hnodup i hi, ?_⟩
  intro k hk1 hkn
  have hentry := IsotypeSeries.range_map_getElem?
    (fun k => IsotypeSeries.renderSymbol (IsotypeSeries.symbolAttrs (plot.series Icon) props
      data[i] (IsotypeSeries.pointAt data[i] k))) (data[i]).y
  refine ⟨IsotypeSeries.renderSymbol (IsotypeSeries.symbolAttrs (plot.series Icon) props
      data[i] (IsotypeSeries.pointAt data[i] k)), ?_, rfl, rfl, rfl, rfl, ?_, ?_⟩
  · rw [hsym, hentry k hk1, if_pos hkn]
  · show plot.valueScale ((k : Nat) : ℚ) = _
    exact IsotypeSeries.Plot.valueScale_count Icon plot hh hmax k
  · intro k' t hkk ht
    have hk1' : 1 ≤ k' := le_trans hk1 hkk
    rw [hsym, hentry k' hk1'] at ht
    split_ifs at ht with hkn'
    · have ht' := Option.some.inj ht
      subst ht'
      refine ⟨?_, rfl⟩
      show plot.valueScale ((k' : Nat) : ℚ) ≤ plot.valueScale ((k : Nat) : ℚ)
      have hkq : (k : ℚ) ≤ (k' : ℚ) := by exact_mod_cast hkk
      have hnn := IsotypeSeries.Plot.unit_nonneg plot hh hmax
      rw [IsotypeSeries.Plot.valueScale_linear plot (k' : ℚ),
        IsotypeSeries.Plot.valueScale_linear plot (k : ℚ)]
      nlinarith [mul_nonneg (sub_nonneg.mpr hkq) hnn]

/-- Witness for C9 on the story (plot 300 by 220, so bands 100 wide, units 20 high and
icons 17 wide): `render` returns the three column groups, the baseline is 220 and the
centre of Cat is 150, so the second icon of Cat is at `x = 150 - 17/2` and
`y = 220 - 2 * 20`. -/
theorem icon_position_witness :
    (∃ g : IsotypeSeries.SeriesGroup String,
      IsotypeSeries.render (IsotypeSeries.storyPlot.series String) IsotypeSeries.storyProps =
        .ok (some g) ∧
      g.columns.length = 3 ∧
      ∃ (cat : IsotypeSeries.ColumnGroup String) (s : IsotypeSeries.Symbol String),
        g.columns[1]? = some cat ∧ cat.symbols[1]? = some s ∧ s.key = 2 ∧
        s.x = 150 - 17 / 2 ∧ s.y = 220 - 2 * 20) ∧
    IsotypeSeries.storyPlot.baseline = 220 ∧
    IsotypeSeries.heightPerIcon (IsotypeSeries.storyPlot.series String) = 20 ∧
    IsotypeSeries.size (IsotypeSeries.storyPlot.series String) IsotypeSeries.storyProps = 17 ∧
    IsotypeSeries.storyPlot.categoryCenter "Cat" = 150 := by
  have hcenter : IsotypeSeries.storyPlot.categoryCenter "Cat" = 150 := by
    have hidx : List.indexOf "Cat" ["Clock", "Cat", "Lock"] = 1 := by decide
    norm_num [IsotypeSeries.Plot.categoryCenter, IsotypeSeries.Plot.widthPerCategory,
      IsotypeSeries.storyPlot, hidx]
  have hbase : IsotypeSeries.storyPlot.baseline = 220 := by
    norm_num [IsotypeSeries.Plot.baseline, IsotypeSeries.Plot.valueScale,
      IsotypeSeries.Plot.valueDomain, IsotypeSeries.storyPlot]
  refine ⟨?_, hbase, IsotypeSeries.story_heightPerIcon, IsotypeSeries.story_size, hcenter⟩
  obtain ⟨_, _, g, hg, hlen, hcols⟩ :=
    icon_position IsotypeSeries.storyPlot IsotypeSeries.storyProps IsotypeSeries.storyData
      rfl rfl (by decide) (by norm_num [IsotypeSeries.storyPlot])
      (by norm_num [IsotypeSeries.storyPlot]) (by decide)
  have hg1 : 1 < g.columns.length := by
    rw [hlen]
    decide
  obtain ⟨_, _, hpoints⟩ := hcols 1 (by decide) hg1
  obtain ⟨s, hs, hkey, _, hx, _, hy, _⟩ := hpoints 2 (by decide) (by decide)
  refine ⟨g, hg, hlen, g.columns[1], s, ?_, hs, hkey, ?_, ?_⟩
  · exact List.getElem?_eq_getElem hg1
  · rw [hx, IsotypeSeries.story_size]
    show IsotypeSeries.storyPlot.categoryCenter "Cat" - 17 / 2 = 150 - 17 / 2
    rw [hcenter]
  · rw [hy, hbase, IsotypeSeries.story_heightPerIcon]
    norm_num

/-- C9 fails as stated. For a column of count `2 ^ 32`, `Array(column.y)` raises and
`render` places no icon at all, for no point index. And with the value scale evaluated in
binary64 arithmetic, as the plotting library evaluates it, the sixth icon of the story's
Cat is placed at `y = 100.00000000000001` under either interpolator, while
`baseline - 6 * height_per_unit` is `220 - 6 * 20 = 100`. -/
theorem icon_position_counterexample :
    IsotypeSeries.render (IsotypeSeries.hugePlot.series String) IsotypeSeries.hugeProps =
      .error JsError.rangeError ∧
    (∀ interpolator : Interpolator,
      ∃ (g : IsotypeSeries.SeriesGroup String) (cat : IsotypeSeries.ColumnGroup String)
          (s6 : IsotypeSeries.Symbol String),
        IsotypeSeries.render (IsotypeSeries.storyPlot.doubleSeries String interpolator)
          IsotypeSeries.storyProps = .ok (some g) ∧
        g.columns[1]? = some cat ∧ cat.key = "Cat" ∧
        cat.symbols[5]? = some s6 ∧ s6.key = 6 ∧
        s6.y = 7036874417766401 / 70368744177664 ∧
        (IsotypeSeries.storyPlot.doubleSeries String interpolator).value0Functor
          (IsotypeSeries.emptyDatum String) = 220 ∧
        IsotypeSeries.heightPerIcon (IsotypeSeries.storyPlot.doubleSeries String interpolator) =
          20 ∧
        s6.y ≠ (IsotypeSeries.storyPlot.doubleSeries String interpolator).value0Functor
            (IsotypeSeries.emptyDatum String) -
          ((6 : Nat) : ℚ) *
            IsotypeSeries.heightPerIcon
              (IsotypeSeries.storyPlot.doubleSeries String interpolator)) := by
  have h32 : ∀ c ∈ IsotypeSeries.storyData, c.y < 2 ^ 32 := by decide
  refine ⟨IsotypeSeries.render_error _ _ IsotypeSeries.hugeColumn [] rfl (by decide), ?_⟩
  intro interpolator
  have h6 : ((IsotypeSeries.storyPlot.doubleSeries String interpolator).valueFunctor
      (IsotypeSeries.pointAt IsotypeSeries.catColumn 6).toDatum) =
      7036874417766401 / 70368744177664 := by
    cases interpolator
    · exact IsotypeSeries.story_double_offset.2.2.2
    · exact IsotypeSeries.story_double_weighted.2.2.2
  have h0 : (IsotypeSeries.storyPlot.doubleSeries String interpolator).value0Functor
      (IsotypeSeries.emptyDatum String) = 220 := by
    cases interpolator
    · exact IsotypeSeries.story_double_offset.1
    · exact IsotypeSeries.story_double_weighted.1
  refine ⟨_, _, _,
    IsotypeSeries.render_of_lt (IsotypeSeries.storyPlot.doubleSeries String interpolator)
      IsotypeSeries.storyProps IsotypeSeries.storyData rfl h32,
    rfl, rfl, rfl, rfl, h6, h0, IsotypeSeries.story_double_heightPerIcon interpolator, ?_⟩
  rw [h0, IsotypeSeries.story_double_heightPerIcon interpolator]
  show ((IsotypeSeries.storyPlot.doubleSeries String interpolator).valueFunctor
      (IsotypeSeries.pointAt IsotypeSeries.catColumn 6).toDatum) ≠ _
  rw [h6]
  norm_num

/-! ## Claim C10 -/

/-- C10, as amended: for every column, in a plot with a band scale and a zero-based
linear scale, the hit-region rectangle is one icon size wide and centred on the centre of
the column's band, and it reaches from the image of the column's count down to the
baseline: its height is `count * height_per_unit`. For a chart with a single column of
count `0`, `render` yields zero icon points and a hit-region rectangle of height `0`.
These are the rectangles `render` draws, one per column, whenever every count is an
array length. -/
theorem hit_region_covers_stack {Icon : Type} (plot : IsotypeSeries.Plot)
    (props : IsotypeSeries.Props Icon) (column : IsotypeSeries.Column Icon)
    (hh : 0 ≤ plot.plotHeight) (hmax : 0 ≤ plot.valueMax) :
    (IsotypeSeries.rectAttrs (plot.series Icon) props column).height =
      (column.y : ℚ) * IsotypeSeries.heightPerIcon (plot.series Icon) ∧
    (IsotypeSeries.rectAttrs (plot.series Icon) props column).y =
      plot.baseline - (column.y : ℚ) * IsotypeSeries.heightPerIcon (plot.series Icon) ∧
    (IsotypeSeries.rectAttrs (plot.series Icon) props column).x =
      plot.categoryCenter column.x - IsotypeSeries.size (plot.series Icon) props / 2 ∧
    (IsotypeSeries.rectAttrs (plot.series Icon) props column).width =
      IsotypeSeries.size (plot.series Icon) props ∧
    (column.y = 0 →
      (IsotypeSeries.rectAttrs (plot.series Icon) props column).height = 0 ∧
      IsotypeSeries.render (plot.series Icon) { props with data := some [column] } =
        .ok (some { translate := (props.marginLeft, props.marginTop),
                    columns := [{ key := column.x,
                                  hovered := column,
                                  rect := IsotypeSeries.rectAttrs (plot.series Icon) props column,
                                  symbols := [] }] })) ∧
    (∀ data : List (IsotypeSeries.Column Icon), props.data = some data →
      (∀ c ∈ data, c.y < 2 ^ 32) →
      ∃ g : IsotypeSeries.SeriesGroup Icon,
        IsotypeSeries.render (plot.series Icon) props = .ok (some g) ∧
        g.columns.map (fun c => c.rect) =
          data.map (fun c => IsotypeSeries.rectAttrs (plot.series Icon) props c)) := by
  have hcount := IsotypeSeries.Plot.valueScale_count Icon plot hh hmax column.y
  have hnn : 0 ≤ (column.y : ℚ) * IsotypeSeries.heightPerIcon (plot.series Icon) :=
    mul_nonneg (Nat.cast_nonneg _) (IsotypeSeries.heightPerIcon_nonneg _)
  have hheight : (IsotypeSeries.rectAttrs (plot.series Icon) props column).height =
      (column.y : ℚ) * IsotypeSeries.heightPerIcon (plot.series Icon) := by
    show |(-plot.valueScale 0) + plot.valueScale ((column.y : Nat) : ℚ)| = _
    rw [hcount]
    have hval : -plot.valueScale 0 +
        (plot.baseline - (column.y : ℚ) * IsotypeSeries.heightPerIcon (plot.series Icon)) =
        -((column.y : ℚ) * IsotypeSeries.heightPerIcon (plot.series Icon)) := by
      unfold IsotypeSeries.Plot.baseline
      ring
    rw [hval, abs_neg, abs_of_nonneg hnn]
  refine ⟨hheight, ?_, rfl, rfl, ?_, ?_⟩
  · show min (plot.valueScale 0) (plot.valueScale ((column.y : Nat) : ℚ)) = _
    rw [hcount]
    apply min_eq_right
    unfold IsotypeSeries.Plot.baseline
    linarith
  · intro h0
    refine ⟨?_, ?_⟩
    · rw [hheight, h0]
      simp
    · simp only [IsotypeSeries.render, IsotypeSeries.renderColumns,
        IsotypeSeries.renderColumn, IsotypeSeries.dataPointsForColumn, h0]
      rfl
  · intro data hdata h32
    refine ⟨_, IsotypeSeries.render_of_lt (plot.series Icon) props data hdata h32, ?_⟩
    simp only [List.map_map]
    rfl

/-- Witness for C10 on the story (plot 300 by 220): the rectangle of Lock, of count 3, is
`3 * 20 = 60` high, and the chart of a single column of count `0` has no icon and a
rectangle of height `0`. -/
theorem hit_region_covers_stack_witness :
    (IsotypeSeries.rectAttrs (IsotypeSeries.storyPlot.series String) IsotypeSeries.storyProps
        IsotypeSeries.lockColumn).height =
      ((3 : Nat) : ℚ) * IsotypeSeries.heightPerIcon (IsotypeSeries.storyPlot.series String) ∧
    (IsotypeSeries.rectAttrs (IsotypeSeries.emptyPlot.series String) IsotypeSeries.emptyProps
        IsotypeSeries.emptyColumn).height = 0 :=
  ⟨(hit_region_covers_stack IsotypeSeries.storyPlot IsotypeSeries.storyProps
      IsotypeSeries.lockColumn (by norm_num [IsotypeSeries.storyPlot])
      (by norm_num [IsotypeSeries.storyPlot])).1,
    ((hit_region_covers_stack IsotypeSeries.emptyPlot IsotypeSeries.emptyProps
      IsotypeSeries.emptyColumn (by norm_num [IsotypeSeries.emptyPlot])
      (by norm_num [IsotypeSeries.emptyPlot])).2.2.2.2.1 rfl).1⟩

/-- C10 fails as stated: in a plot 200 wide and 100 high, the chart of a single column of
count `0` has icons sized 85, no icon placed, and a hit-region rectangle at `x = 57.5`,
`y = 0`, 85 wide and of height `0`, not the plot height `100`; and in the story's plot,
300 wide and 220 high with bands 100 wide, the rectangle of Lock is 60 high and 17 wide,
neither full-height nor as wide as the band. -/
theorem hit_region_counterexample :
    IsotypeSeries.render (IsotypeSeries.emptyPlot.series String) IsotypeSeries.emptyProps =
      .ok (some { translate := (0, 0),
                  columns := [{ key := "A",
                                hovered := IsotypeSeries.emptyColumn,
                                rect := { x := 115 / 2, width := 85, y := 0, height := 0,
                                          fill := "transparent" },
                                symbols := [] }] }) ∧
    IsotypeSeries.emptyPlot.plotHeight = 100 ∧
    (IsotypeSeries.rectAttrs (IsotypeSeries.emptyPlot.series String) IsotypeSeries.emptyProps
        IsotypeSeries.emptyColumn).height ≠ IsotypeSeries.emptyPlot.plotHeight ∧
    (IsotypeSeries.rectAttrs (IsotypeSeries.storyPlot.series String) IsotypeSeries.storyProps
        IsotypeSeries.lockColumn).height = 60 ∧
    IsotypeSeries.storyPlot.plotHeight = 220 ∧
    (IsotypeSeries.rectAttrs (IsotypeSeries.storyPlot.series String) IsotypeSeries.storyProps
        IsotypeSeries.lockColumn).width = 17 ∧
    IsotypeSeries.storyPlot.widthPerCategory = 100 := by
  have hidx : List.indexOf "A" ["A"] = 0 := by decide
  refine ⟨?_, rfl, ?_, ?_, rfl, ?_, ?_⟩
  · simp only [IsotypeSeries.render, IsotypeSeries.renderColumns, IsotypeSeries.renderColumn,
      IsotypeSeries.dataPointsForColumn, IsotypeSeries.emptyProps, IsotypeSeries.emptyColumn]
    norm_num [IsotypeSeries.rectAttrs, IsotypeSeries.size, IsotypeSeries.heightPerIcon,
      IsotypeSeries.widthPerIcon, IsotypeSeries.scaleFactor, IsotypeSeries.Plot.series,
      IsotypeSeries.Plot.valueScale, IsotypeSeries.Plot.valueDomain,
      IsotypeSeries.Plot.categoryCenter, IsotypeSeries.Plot.widthPerCategory,
      IsotypeSeries.emptyPlot, IsotypeSeries.unitDatum, IsotypeSeries.Column.toDatum, hidx]
  · norm_num [IsotypeSeries.rectAttrs, IsotypeSeries.Plot.series,
      IsotypeSeries.Plot.valueScale, IsotypeSeries.Plot.valueDomain, IsotypeSeries.emptyPlot,
      IsotypeSeries.emptyColumn, IsotypeSeries.Column.toDatum]
  · norm_num [IsotypeSeries.rectAttrs, IsotypeSeries.Plot.series,
      IsotypeSeries.Plot.valueScale, IsotypeSeries.Plot.valueDomain, IsotypeSeries.storyPlot,
      IsotypeSeries.lockColumn, IsotypeSeries.Column.toDatum]
  · show IsotypeSeries.size (IsotypeSeries.storyPlot.series String)
      IsotypeSeries.storyProps = 17
    exact IsotypeSeries.story_size
  · norm_num [IsotypeSeries.Plot.widthPerCategory, IsotypeSeries.storyPlot]

/-! ## Claim C11 -/

/-- C11: for every count `totalCount` and tag string `tag`, the header built by the `Tags`
template is the decimal numeral of `totalCount` followed by ` post tagged with "tag"`
exactly when `totalCount = 1`, and by ` posts tagged with "tag"` for every other count,
including `0`; it is the header the component renders. -/
theorem tagHeader_singular_iff_one (totalCount : Nat) (tag : String) :
    (Tags.tagHeader totalCount tag =
        toString totalCount ++ " post tagged with \"" ++ tag ++ "\"" ↔ totalCount = 1) ∧
    (Tags.tagHeader totalCount tag =
        toString totalCount ++ " posts tagged with \"" ++ tag ++ "\"" ↔ totalCount ≠ 1) ∧
    toString totalCount = String.mk (Nat.toDigits 10 totalCount) ∧
    Tags.tagHeader 0 tag = "0 posts tagged with \"" ++ tag ++ "\"" ∧
    Tags.tagHeader 1 tag = "1 post tagged with \"" ++ tag ++ "\"" ∧
    (∀ edges : List Post,
      (Tags.render tag { totalCount := totalCount, edges := edges }).tagHeader =
        Tags.tagHeader totalCount tag) := by
  refine ⟨?_, ?_, rfl, ?_, ?_, fun _ => rfl⟩
  · unfold Tags.tagHeader
    constructor
    · intro h
      by_contra hc
      rw [if_neg hc] at h
      have hdata := congrArg String.data h
      simp only [String.data_append, List.append_assoc, List.append_cancel_left_eq] at hdata
      simp at hdata
    · intro h
      rw [if_pos h]
      simp [String.ext_iff, String.data_append]
  · unfold Tags.tagHeader
    constructor
    · intro h hc
      rw [if_pos hc] at h
      have hdata := congrArg String.data h
      simp only [String.data_append, List.append_assoc, List.append_cancel_left_eq] at hdata
      simp at hdata
    · intro h
      rw [if_neg h]
      simp [String.ext_iff, String.data_append]
  · simp [Tags.tagHeader, String.ext_iff, String.data_append]
    rfl
  · simp [Tags.tagHeader, String.ext_iff, String.data_append]
    rfl

end Blog
